import Mathlib

/-!
# tongsuo-benchmark-api: the request pipeline of `main.go`

A shallow embedding of `src/src/main.go`: the database connector `initDB`, the three
middleware stages `Cors`, `SearchTime`, `OrderBy`, and the handler of `GET /v1/:algo`.

The program is written against two libraries, and the parts of them that the program
calls are embedded first:

* `fmt.Sprintf`, `strings.Join` and, as far as it can fail, `json.Marshal` (Go standard
  library);
* the gin `Context` and its response writer: `Next`, `Abort`, `AbortWithStatus`,
  `Status`, `Header`, `GetHeader`, `Query`, `Param`, `Set`, `GetString`, `JSON`, and the
  engine's `handleHTTPRequest` / `serveError`.

The library functions are embedded from their Go sources (gin `context.go`,
`response_writer.go`, `gin.go`; net/http `server.go`), one definition per function, under
the library's names.

The database is an input of the model: a function from the destination shape and the SQL
text to either an error or the decoded rows.  Every statement handed to `DB.Select` is
recorded, in order, in the field `queries` of the context.

A handler is a function of the context and of what `c.Next()` does when the handler calls
it; `Next` takes a fuel argument, and a run that exhausts it yields `none`.  The results
below hold for every fuel of at least 7, the depth of the longest chain plus one.
-/

namespace TongsuoBenchmark

/-! ## Go standard library: `fmt.Sprintf`, `strings.Join` -/

/-- An operand of `fmt.Sprintf`: a string (for `%s`) or an integer (for `%d`). -/
inductive Arg where
  | s (v : String)
  | d (v : Int)

/-- The scanning loop of `fmt.Sprintf` for the verbs `%s` and `%d` with an operand of the
matching kind, which are the only verbs this program uses; every other character of the
format is copied to the output. -/
def sprintfAux : List Char → List Arg → String → String
  | [], _, acc => acc
  | '%' :: 's' :: fmt, Arg.s v :: args, acc => sprintfAux fmt args (acc ++ v)
  | '%' :: 'd' :: fmt, Arg.d v :: args, acc => sprintfAux fmt args (acc ++ toString v)
  | ch :: fmt, args, acc => sprintfAux fmt args (acc.push ch)

/-- Go `fmt.Sprintf(format, args...)`. -/
def Sprintf (format : String) (args : List Arg) : String :=
  sprintfAux format.toList args ""

/-- Go `strings.Join(elems, sep)`. -/
def Join : List String → String → String
  | [], _ => ""
  | [a], _ => a
  | a :: b :: rest, sep => a ++ sep ++ Join (b :: rest) sep

/-! ## net/http and gin: request, response writer, context -/

/-- A string-keyed map with string values, as an association list (first match wins). -/
abbrev StrMap := List (String × String)

/-- Go `http.Header.Set` / map assignment: the key is bound to the value, any previous
binding of the key is dropped. -/
def StrMap.set (m : StrMap) (key value : String) : StrMap :=
  (key, value) :: m.filter (fun kv => kv.1 != key)

/-- Go `http.Header.Del`. -/
def StrMap.del (m : StrMap) (key : String) : StrMap :=
  m.filter (fun kv => kv.1 != key)

/-- Go `http.Header.Get`, `url.Values.Get`: the value bound to the key, `""` when there is
none. -/
def StrMap.get (m : StrMap) (key : String) : String :=
  (m.lookup key).getD ""

/-- An incoming request, as the program observes it.  `Header` and `Query` hold the request
headers and the URL query values.  `route` is the result of looking the URL path up in the
method tree for GET, the only tree the program registers, whose only route is `/v1/:algo`:
`some algo` when the path matches with that parameter value, `none` when the tree has no
handlers for the path.  (A GET path that gin answers by itself with a trailing-slash
redirect enters no handler chain and is not a `Request` of this model.) -/
structure Request where
  Method : String
  route : Option String
  Header : StrMap
  Query : StrMap

/-- A Go `float32` as far as `encoding/json` distinguishes it: a finite number (by its bit
pattern), a NaN or an infinity. -/
inductive F32 where
  | finite (bits : Nat)
  | nan
  | posInf
  | negInf
deriving DecidableEq

/-- A field value of a decoded record: the field types of the five record types are
`int64`, `int32`, `string` and `float32`. -/
inductive Value where
  | int (v : Int)
  | str (v : String)
  | float (v : F32)
deriving DecidableEq

/-- One decoded database row: field name and value. -/
abbrev Row := List (String × Value)

/-- A payload written to the response body. -/
inductive Body where
  | text (s : String)
  | json (rows : List Row)
deriving DecidableEq

/-- The gin `responseWriter` on top of a net/http response.  `status` is the pending status
code, `written` is gin's `size != noWritten`, `header` the response header map
(`w.Header()`), `body` the payloads written.  `sent` is what net/http took at its first
`WriteHeader`: the status code and a snapshot of the header map (net/http: changing the
header map after a call to `WriteHeader` has no effect). -/
structure ResponseWriter where
  status : Nat
  written : Bool
  header : StrMap
  sent : Option (Nat × StrMap)
  body : List Body

/-- The destination shapes of `DB.Select`, one per record type of `main.go`. -/
inductive Records where
  | SymmetricEncryptionRecord
  | DigestRecord
  | KeyExchangeRecord
  | SignatureRecord
  | PheRecord
deriving DecidableEq

/-- The database handle: `DB.Select(records, sql)` either fails or decodes rows. -/
abbrev Database := Records → String → Except String (List Row)

/-- The gin `Context` of one request.  `index` is the position in the handler chain,
`Keys` the request-scoped values (only strings are ever stored by this program),
`queries` the SQL statements passed to `DB.Select` so far, and `Errors` the errors
attached with `c.Error`. -/
structure Context where
  Request : Request
  Params : StrMap
  Writer : ResponseWriter
  Keys : StrMap
  index : Int
  queries : List String
  Errors : List String

/-- Constant `http.StatusOK`. -/
def StatusOK : Nat := 200
/-- Constant `http.StatusNoContent`. -/
def StatusNoContent : Nat := 204
/-- Constant `http.StatusNotFound`. -/
def StatusNotFound : Nat := 404
/-- The gin constant `abortIndex` (`math.MaxInt8 >> 1`). -/
def abortIndex : Int := 63

/-- The gin `responseWriter.Written`. -/
def ResponseWriter.Written (w : ResponseWriter) : Bool := w.written

/-- The gin `responseWriter.WriteHeader`:
`if code > 0 && w.status != code { if w.Written() { return }; w.status = code }`. -/
def ResponseWriter.WriteHeader (w : ResponseWriter) (code : Nat) : ResponseWriter :=
  if code > 0 ∧ w.status ≠ code then
    if w.Written then w else { w with status := code }
  else w

/-- The gin `responseWriter.WriteHeaderNow`:
`if !w.Written() { w.size = 0; w.ResponseWriter.WriteHeader(w.status) }`.  The call of
net/http `WriteHeader` fixes the status code and the headers sent. -/
def ResponseWriter.WriteHeaderNow (w : ResponseWriter) : ResponseWriter :=
  if w.Written then w
  else { w with written := true, sent := some (w.status, w.header) }

/-- The gin `responseWriter.Write`: `w.WriteHeaderNow()`, then the data is written. -/
def ResponseWriter.Write (w : ResponseWriter) (data : Body) : ResponseWriter :=
  let w1 := w.WriteHeaderNow
  { w1 with body := w1.body ++ [data] }

/-- The gin `Context.Status`: `c.Writer.WriteHeader(code)`. -/
def Context.Status (c : Context) (code : Nat) : Context :=
  { c with Writer := c.Writer.WriteHeader code }

/-- The gin `Context.Abort`: `c.index = abortIndex`. -/
def Context.Abort (c : Context) : Context :=
  { c with index := abortIndex }

/-- The gin `Context.AbortWithStatus`: `c.Status(code); c.Writer.WriteHeaderNow();
c.Abort()`. -/
def Context.AbortWithStatus (c : Context) (code : Nat) : Context :=
  let c1 := c.Status code
  let c2 := { c1 with Writer := c1.Writer.WriteHeaderNow }
  c2.Abort

/-- The gin `Context.Header`: sets a response header, or deletes it when the value is
empty. -/
def Context.Header (c : Context) (key value : String) : Context :=
  if value = "" then { c with Writer := { c.Writer with header := c.Writer.header.del key } }
  else { c with Writer := { c.Writer with header := c.Writer.header.set key value } }

/-- The gin `Context.GetHeader`. -/
def Context.GetHeader (c : Context) (key : String) : String :=
  c.Request.Header.get key

/-- The gin `Context.Query`. -/
def Context.Query (c : Context) (key : String) : String :=
  c.Request.Query.get key

/-- The gin `Context.Param`. -/
def Context.Param (c : Context) (key : String) : String :=
  c.Params.get key

/-- The gin `Context.Set`. -/
def Context.Set (c : Context) (key value : String) : Context :=
  { c with Keys := c.Keys.set key value }

/-- The gin `Context.GetString`: the stored string, `""` when the key is absent. -/
def Context.GetString (c : Context) (key : String) : String :=
  match c.Keys.lookup key with
  | some val => val
  | none => ""

/-- Go `json.Marshal` on a `float32`: a NaN or an infinity is an unsupported value. -/
def F32.supported : F32 → Bool
  | F32.finite _ => true
  | F32.nan => false
  | F32.posInf => false
  | F32.negInf => false

/-- Go `json.Marshal` on a field value: integers and strings are always encoded. -/
def Value.supported : Value → Bool
  | Value.int _ => true
  | Value.str _ => true
  | Value.float f => f.supported

/-- Go `json.Marshal` accepts the decoded rows: no field is an unsupported value. -/
def rowsSupported (obj : List Row) : Bool :=
  obj.all (fun row => row.all (fun kv => kv.2.supported))

/-- Go `json.Marshal` on the decoded rows: the encoded payload, or an error when some
`float32` field is a NaN or an infinity. -/
def Marshal (obj : List Row) : Except String Body :=
  if rowsSupported obj then Except.ok (Body.json obj)
  else Except.error "json: unsupported value"

/-- The gin `Context.Error`: the error is attached to the context. -/
def Context.Error (c : Context) (err : String) : Context :=
  { c with Errors := c.Errors ++ [err] }

/-- The gin `Context.JSON`, that is `c.Render(code, render.JSON{Data: obj})`, for a status
that allows a body: `c.Status(code)`, then the JSON renderer sets `Content-Type` unless it
is set already, encodes the value and writes it.  When the encoding fails nothing is
written and `Render` does `c.Error(err); c.Abort()`. -/
def Context.JSON (c : Context) (code : Nat) (obj : List Row) : Context :=
  let c1 := c.Status code
  let w := c1.Writer
  let w1 :=
    if w.header.lookup "Content-Type" = none then
      { w with header := w.header.set "Content-Type" "application/json; charset=utf-8" }
    else w
  match Marshal obj with
  | Except.error err => (Context.Error { c1 with Writer := w1 } err).Abort
  | Except.ok data => { c1 with Writer := w1.Write data }

/-- The statement `c.index++` of gin `Context.Next`. -/
def Context.incIndex (c : Context) : Context :=
  { c with index := c.index + 1 }

/-- A gin `HandlerFunc`.  The first argument is what the call `c.Next()` does inside the
handler; `none` is a run that did not finish within the fuel given to `Next`. -/
abbrev HandlerFunc := (Context → Option Context) → Context → Option Context

/-- The loop of gin `Context.Next`:
`for c.index < len(c.handlers) { c.handlers[c.index](c); c.index++ }`.
One unit of fuel is spent per test of the loop condition.  A negative index, which Go
would reject at the slice access, yields `none`; the index starts at -1 and is incremented
before the loop, and stays far below the bound of its Go type `int8`. -/
def nextLoop (handlers : List HandlerFunc) (next : Context → Option Context) :
    Nat → Context → Option Context
  | 0, _ => none
  | fuel + 1, c =>
    if c.index < handlers.length then
      if c.index < 0 then none
      else
        match handlers[c.index.toNat]? with
        | none => none
        | some h =>
          match h next c with
          | none => none
          | some c1 => nextLoop handlers next fuel c1.incIndex
    else some c

/-- The gin `Context.Next`: `c.index++`, then the loop over the remaining handlers.  A
handler that calls `c.Next()` re-enters this function on the same chain. -/
def Next (handlers : List HandlerFunc) : Nat → Context → Option Context
  | 0, _ => none
  | fuel + 1, c =>
    nextLoop handlers (Next handlers fuel) (fuel + 1) c.incIndex

/-- The gin `Logger` middleware of `gin.Default()`: runs the rest of the chain, then
prints a log line. -/
def Logger : HandlerFunc := fun next c => next c

/-- The gin `Recovery` middleware of `gin.Default()`: runs the rest of the chain. -/
def Recovery : HandlerFunc := fun next c => next c

/-! ## main.go -/

/-- Variable `dbDefaultPort`. -/
def dbDefaultPort : Int := 3306

/-- Type `DbConfig`. -/
structure DbConfig where
  Username : String
  Password : String
  Addr : String
  Port : Int
  Database : String

/-- The connection pool returned by `sqlx.Connect`, with its two limits. -/
structure Pool where
  dsn : String
  maxOpenConns : Nat
  maxIdleConns : Nat

/-- Go `DB.SetMaxOpenConns`. -/
def Pool.SetMaxOpenConns (db : Pool) (n : Nat) : Pool :=
  { db with maxOpenConns := n }

/-- Go `DB.SetMaxIdleConns`. -/
def Pool.SetMaxIdleConns (db : Pool) (n : Nat) : Pool :=
  { db with maxIdleConns := n }

/-- The sqlx package as `initDB` uses it: `server` is the outcome of a connection attempt
for a driver name and a DSN, `calls` the attempts made so far. -/
structure Sqlx where
  server : String → String → Except String Pool
  calls : List (String × String)

/-- The call `sqlx.Connect(driverName, dataSourceName)`: the attempt is recorded and its
outcome returned. -/
def Sqlx.Connect (sqlx : Sqlx) (driverName dataSourceName : String) :
    Sqlx × Except String Pool :=
  ({ sqlx with calls := sqlx.calls ++ [(driverName, dataSourceName)] },
    sqlx.server driverName dataSourceName)

/-- Function `initDB`: the state of sqlx after the call, and the handle or the error. -/
def initDB (sqlx : Sqlx) (dbConf : DbConfig) : Sqlx × Except String Pool :=
  let port := if dbConf.Port ≠ 0 then dbConf.Port else dbDefaultPort
  let dsn := Sprintf "%s:%s@tcp(%s:%d)/%s?charset=utf8mb4&parseTime=True"
    [Arg.s dbConf.Username, Arg.s dbConf.Password, Arg.s dbConf.Addr, Arg.d port,
     Arg.s dbConf.Database]
  match sqlx.Connect "mysql" dsn with
  | (sqlx1, Except.error err) => (sqlx1, Except.error err)
  | (sqlx1, Except.ok db) => (sqlx1, Except.ok ((db.SetMaxOpenConns 20).SetMaxIdleConns 10))

/-- Function `Cors`. -/
def Cors : HandlerFunc := fun next c =>
  let c1 := if c.Request.Method = "OPTIONS" then c.AbortWithStatus StatusNoContent else c
  let c2 :=
    if c1.GetHeader "Origin" ≠ "" then
      ((((c1.Header "Access-Control-Allow-Origin" "*").Header
        "Access-Control-Allow-Methods" "POST, GET, OPTIONS, PUT, DELETE, UPDATE").Header
        "Access-Control-Allow-Headers"
          "Origin, X-Requested-With, Content-Type, Accept, Authorization").Header
        "Access-Control-Expose-Headers"
          "Content-Length, Access-Control-Allow-Origin, Access-Control-Allow-Headers, Cache-Control, Content-Language, Content-Type").Header
        "Access-Control-Allow-Credentials" "true"
    else c1
  next c2

/-- Function `SearchTime`. -/
def SearchTime : HandlerFunc := fun next c =>
  let c1 := if c.Request.Method ≠ "GET" then c.AbortWithStatus StatusNoContent else c
  let startTime := c1.Query "start_time"
  let endTime := c1.Query "end_time"
  let c2 :=
    if startTime ≠ "" ∨ endTime ≠ "" then
      let condition : List String := []
      let condition :=
        if startTime ≠ "" then
          condition ++ [Sprintf "`job_date` >= '%s'" [Arg.s startTime]]
        else condition
      let condition :=
        if endTime ≠ "" then
          condition ++ [Sprintf "`job_date` <= '%s'" [Arg.s endTime]]
        else condition
      let whereSql := Sprintf "where %s" [Arg.s (Join condition " and ")]
      c1.Set "where" whereSql
    else c1
  next c2

/-- Function `OrderBy`. -/
def OrderBy : HandlerFunc := fun next c =>
  next (c.Set "order" "order by id asc")

/-- The dispatch switch of the `/:algo` handler: the destination shape for a recognized
name, `none` for the `default` branch. -/
def dispatch (algo : String) : Option Records :=
  if algo = "symmetric_encryption" then some Records.SymmetricEncryptionRecord
  else if algo = "digest" then some Records.DigestRecord
  else if algo = "key_exchange" then some Records.KeyExchangeRecord
  else if algo = "signature" then some Records.SignatureRecord
  else if algo = "phe" then some Records.PheRecord
  else none

/-- The handler registered by `v1.GET("/:algo", ...)` in `main`. -/
def algoHandler (DB : Database) : HandlerFunc := fun _ c =>
  let algo := c.Param "algo"
  match dispatch algo with
  | none => some (c.AbortWithStatus StatusNotFound)
  | some records =>
    let sql := Sprintf "select * from %s %s %s"
      [Arg.s algo, Arg.s (c.GetString "where"), Arg.s (c.GetString "order")]
    let c1 := { c with queries := c.queries ++ [sql] }
    match DB records sql with
    | Except.error _ => some c1
    | Except.ok rows => some (c1.JSON StatusOK rows)

/-- The handlers installed on the engine: `gin.Default()` followed by the three `r.Use`
calls of `main`. -/
def middleware : List HandlerFunc := [Logger, Recovery, Cors, SearchTime, OrderBy]

/-- The chain of the route `GET /v1/:algo`: the group's handlers followed by the route
handler. -/
def routeChain (DB : Database) : List HandlerFunc := middleware ++ [algoHandler DB]

/-- The chain `engine.allNoRoute`: no `NoRoute` handler is registered, so it is the
engine's middleware alone. -/
def allNoRoute : List HandlerFunc := middleware

/-- The context as the engine resets it for a new request. -/
def newContext (req : Request) : Context :=
  { Request := req
    Params := []
    Writer := { status := StatusOK, written := false, header := [], sent := none, body := [] }
    Keys := []
    index := -1
    queries := []
    Errors := [] }

/-- The gin `serveError`: `c.writermem.status = code; c.Next()`; then nothing more if a
handler has written, the default message with `Content-Type: text/plain` if the status is
still `code`, and `WriteHeaderNow()` otherwise. -/
def serveError (handlers : List HandlerFunc) (fuel : Nat) (c : Context) (code : Nat)
    (defaultMessage : String) : Option Context :=
  match Next handlers fuel { c with Writer := { c.Writer with status := code } } with
  | none => none
  | some c1 =>
    if c1.Writer.Written then some c1
    else if c1.Writer.status = code then
      let w := { c1.Writer with header := c1.Writer.header.set "Content-Type" "text/plain" }
      some { c1 with Writer := w.Write (Body.text defaultMessage) }
    else some { c1 with Writer := c1.Writer.WriteHeaderNow }

/-- The gin `Engine.handleHTTPRequest` for the engine built in `main`.  A GET request whose
path matches `/v1/:algo`: `c.handlers = value.handlers; c.Next();
c.writermem.WriteHeaderNow()`.  Every other request (no method tree, or no match in the
GET tree): `c.handlers = engine.allNoRoute; serveError(c, http.StatusNotFound,
default404Body)`. -/
def handleHTTPRequest (DB : Database) (fuel : Nat) (req : Request) : Option Context :=
  let c := newContext req
  if req.Method = "GET" then
    match req.route with
    | some algo =>
      match Next (routeChain DB) fuel { c with Params := [("algo", algo)] } with
      | none => none
      | some c1 => some { c1 with Writer := c1.Writer.WriteHeaderNow }
    | none => serveError allNoRoute fuel c StatusNotFound "404 page not found"
  else serveError allNoRoute fuel c StatusNotFound "404 page not found"

/-! ## Auxiliary definitions

Names for intermediate contexts and values of the pipeline, and for the properties stated
below.  Each is related to the embedded program by a lemma. -/

/-- The context with which a handler calls `c.Next()`: the handler run with a `Next` that
returns at once. -/
def bodyOf (h : HandlerFunc) (c : Context) : Context := (h some c).getD c

/-- The index advanced by `n`. -/
def Context.bump (c : Context) (n : Nat) : Context := { c with index := c.index + n }

/-- The context in which the handler after the three middleware stages starts, for a
request that no stage aborts. -/
def afterMiddleware (c : Context) : Context :=
  bodyOf OrderBy (bodyOf SearchTime (bodyOf Cors c.incIndex.incIndex.incIndex).incIndex).incIndex

/-- The five `c.Header` calls of `Cors`, on a header map. -/
def corsHeaders (h : StrMap) : StrMap :=
  ((((h.set "Access-Control-Allow-Origin" "*").set
    "Access-Control-Allow-Methods" "POST, GET, OPTIONS, PUT, DELETE, UPDATE").set
    "Access-Control-Allow-Headers"
      "Origin, X-Requested-With, Content-Type, Accept, Authorization").set
    "Access-Control-Expose-Headers"
      "Content-Length, Access-Control-Allow-Origin, Access-Control-Allow-Headers, Cache-Control, Content-Language, Content-Type").set
    "Access-Control-Allow-Credentials" "true"

/-- The value `SearchTime` stores under `where` for the two query values. -/
def whereSql (startTime endTime : String) : String :=
  Sprintf "where %s" [Arg.s (Join
    ((if startTime ≠ "" then [Sprintf "`job_date` >= '%s'" [Arg.s startTime]] else []) ++
      (if endTime ≠ "" then [Sprintf "`job_date` <= '%s'" [Arg.s endTime]] else [])) " and ")]

/-- The context in which the `/:algo` handler starts on a GET request matched with the
parameter value `algo`. -/
def handlerEntry (req : Request) (algo : String) : Context :=
  { Request := req
    Params := [("algo", algo)]
    Writer :=
      { status := StatusOK, written := false,
        header := if req.Header.get "Origin" ≠ "" then corsHeaders [] else [],
        sent := none, body := [] }
    Keys := StrMap.set
      (if req.Query.get "start_time" ≠ "" ∨ req.Query.get "end_time" ≠ "" then
        StrMap.set [] "where" (whereSql (req.Query.get "start_time") (req.Query.get "end_time"))
      else []) "order" "order by id asc"
    index := 5
    queries := []
    Errors := [] }

/-- The SQL text the handler assembles in context `c`. -/
def sqlOf (c : Context) : String :=
  Sprintf "select * from %s %s %s"
    [Arg.s (c.Param "algo"), Arg.s (c.GetString "where"), Arg.s (c.GetString "order")]

/-- The response header map after `Cors` on a fresh response. -/
def corsOf (req : Request) : StrMap :=
  if req.Header.get "Origin" ≠ "" then corsHeaders [] else []

/-- The request-scoped values after `SearchTime` on a fresh context. -/
def whereOf (req : Request) : StrMap :=
  if req.Query.get "start_time" ≠ "" ∨ req.Query.get "end_time" ≠ "" then
    StrMap.set [] "where" (whereSql (req.Query.get "start_time") (req.Query.get "end_time"))
  else []

/-- The value the handler reads under `where` on a fresh request. -/
def whereString (req : Request) : String :=
  if req.Query.get "start_time" ≠ "" ∨ req.Query.get "end_time" ≠ "" then
    whereSql (req.Query.get "start_time") (req.Query.get "end_time")
  else ""

/-- The five names of the dispatch switch of the `/:algo` handler. -/
def recognizedAlgos : List String :=
  ["symmetric_encryption", "digest", "key_exchange", "signature", "phe"]

/-- A database that has no rows in any table. -/
def emptyDB : Database := fun _ _ => Except.ok []

/-- A database on which every statement fails. -/
def failingDB : Database := fun _ _ => Except.error "exec failed"

/-- The five fixed CORS response headers, with their values, are present in a header map. -/
def carriesCorsHeaders (h : StrMap) : Prop :=
  h.lookup "Access-Control-Allow-Origin" = some "*" ∧
  h.lookup "Access-Control-Allow-Methods" = some "POST, GET, OPTIONS, PUT, DELETE, UPDATE" ∧
  h.lookup "Access-Control-Allow-Headers"
    = some "Origin, X-Requested-With, Content-Type, Accept, Authorization" ∧
  h.lookup "Access-Control-Expose-Headers"
    = some "Content-Length, Access-Control-Allow-Origin, Access-Control-Allow-Headers, Cache-Control, Content-Language, Content-Type" ∧
  h.lookup "Access-Control-Allow-Credentials" = some "true"

/-- None of the five CORS response headers is present in a header map. -/
def carriesNoCorsHeader (h : StrMap) : Prop :=
  h.lookup "Access-Control-Allow-Origin" = none ∧
  h.lookup "Access-Control-Allow-Methods" = none ∧
  h.lookup "Access-Control-Allow-Headers" = none ∧
  h.lookup "Access-Control-Expose-Headers" = none ∧
  h.lookup "Access-Control-Allow-Credentials" = none

/-- A preflight request without an `Origin` header. -/
def optionsRequest : Request :=
  { Method := "OPTIONS", route := some "digest", Header := [],
    Query := [("start_time", "2024-01-01")] }

/-- A preflight request with an `Origin` header. -/
def preflightRequest : Request :=
  { Method := "OPTIONS", route := some "digest", Header := [("Origin", "http://localhost")],
    Query := [] }

/-- A POST request with an `Origin` header and a lower bound. -/
def postStartRequest : Request :=
  { Method := "POST", route := some "digest", Header := [("Origin", "http://localhost")],
    Query := [("start_time", "2024-01-01")] }

/-- A GET request for the key exchange table. -/
def keyExchangeRequest : Request :=
  { Method := "GET", route := some "key_exchange", Header := [], Query := [] }

/-- One key exchange record whose `OpTime` is a NaN. -/
def nanRows : List Row :=
  [[("Id", Value.int 1), ("LastCommit", Value.str "1f0c"), ("MyCommit", Value.str "9a2e"),
    ("Algorithm", Value.str "X25519"), ("Date", Value.str "2024-01-01"),
    ("JobDate", Value.str "2024-01-01"), ("OpTime", Value.float F32.nan),
    ("OpQPS", Value.float (F32.finite 0))]]

/-- A database whose tables hold the record `nanRows`. -/
def nanDB : Database := fun _ _ => Except.ok nanRows

/-- A POST request to the digest path. -/
def postRequest : Request :=
  { Method := "POST", route := some "digest", Header := [], Query := [] }

/-- A GET request for the digest table without time parameters. -/
def digestRequest : Request :=
  { Method := "GET", route := some "digest", Header := [("Origin", "http://localhost")],
    Query := [] }

/-- A GET request for an unrecognized table. -/
def unknownRequest : Request :=
  { Method := "GET", route := some "sm4", Header := [], Query := [] }

/-- A GET request with both bounds of the time range. -/
def rangeRequest : Request :=
  { Method := "GET", route := some "digest", Header := [],
    Query := [("start_time", "a"), ("end_time", "b")] }

/-- When the loop of `Next` returns, the index is past the end of the chain. -/
theorem nextLoop_exit (hs : List HandlerFunc) (next : Context → Option Context) :
    ∀ (fuel : Nat) (c c1 : Context), nextLoop hs next fuel c = some c1 →
      (hs.length : Int) ≤ c1.index := by
  intro fuel
  induction fuel with
  | zero => intro c c1 h; simp [nextLoop] at h
  | succ n ih =>
    intro c c1 h
    rw [nextLoop] at h
    by_cases hlt : c.index < (hs.length : Int)
    · rw [if_pos hlt] at h
      by_cases hneg : c.index < 0
      · rw [if_pos hneg] at h; simp at h
      · rw [if_neg hneg] at h
        cases hg : hs[c.index.toNat]? with
        | none => simp [hg] at h
        | some hd =>
          simp only [hg] at h
          cases hr : hd next c with
          | none => simp [hr] at h
          | some c2 =>
            simp only [hr] at h
            exact ih _ _ h
    · rw [if_neg hlt] at h
      simp only [Option.some.injEq] at h
      subst h
      exact not_lt.mp hlt

/-- When `Next` returns, the index is past the end of the chain. -/
theorem Next_exit (hs : List HandlerFunc) (fuel : Nat) (c c1 : Context)
    (h : Next hs fuel c = some c1) : (hs.length : Int) ≤ c1.index := by
  cases fuel with
  | zero => simp [Next] at h
  | succ n => exact nextLoop_exit hs _ _ _ _ h

/-- The loop of `Next` on an index past the end of the chain runs no handler. -/
theorem nextLoop_done (hs : List HandlerFunc) (next : Context → Option Context) (fuel : Nat)
    (c : Context) (h : (hs.length : Int) ≤ c.index) :
    nextLoop hs next (fuel + 1) c = some c := by
  rw [nextLoop, if_neg (not_lt.mpr h)]

/-- One turn of the loop of `Next`: the handler at the index runs, then the index advances.
-/
theorem nextLoop_run (hs : List HandlerFunc) (next : Context → Option Context) (fuel : Nat)
    (c : Context) (i : Nat) (h : HandlerFunc) (hi : c.index = i) (hget : hs[i]? = some h) :
    nextLoop hs next (fuel + 1) c =
      match h next c with
      | none => none
      | some c1 => nextLoop hs next fuel c1.incIndex := by
  have hlen : i < hs.length := by
    rcases List.getElem?_eq_some.mp hget with ⟨hl, _⟩
    exact hl
  have h1 : c.index < (hs.length : Int) := by rw [hi]; exact_mod_cast hlen
  have h2 : ¬ c.index < 0 := by rw [hi]; exact not_lt.mpr (Int.ofNat_nonneg i)
  have h3 : c.index.toNat = i := by rw [hi]; exact Int.toNat_natCast i
  rw [nextLoop, if_pos h1, if_neg h2, h3, hget]

/-- A handler that ends by calling `c.Next()`: the rest of the chain runs on the context
the handler has prepared, and the loop of the enclosing `Next` then finds the chain
exhausted. -/
theorem Next_tail (hs : List HandlerFunc) (h : HandlerFunc) (b : Context → Context) (i : Nat)
    (fuel : Nat) (c : Context) (hget : hs[i]? = some h)
    (hb : ∀ next c, h next c = next (b c)) (hi : c.index + 1 = i) :
    Next hs (fuel + 2) c = (Next hs (fuel + 1) (b c.incIndex)).map Context.incIndex := by
  have e1 : Next hs (fuel + 2) c
      = nextLoop hs (Next hs (fuel + 1)) (fuel + 2) c.incIndex := rfl
  rw [e1, nextLoop_run hs _ (fuel + 1) c.incIndex i h hi hget, hb]
  cases hr : Next hs (fuel + 1) (b c.incIndex) with
  | none => rfl
  | some c1 =>
    have hex := Next_exit hs _ _ _ hr
    have : (hs.length : Int) ≤ c1.incIndex.index := by
      show (hs.length : Int) ≤ c1.index + 1
      omega
    simp only [Option.map_some']
    exact nextLoop_done hs _ fuel _ this

/-- A handler that returns without calling `c.Next()`, as the last handler of the chain or
after an abort. -/
theorem Next_last (hs : List HandlerFunc) (h : HandlerFunc) (i : Nat) (fuel : Nat)
    (c c1 : Context) (hget : hs[i]? = some h) (hi : c.index + 1 = i)
    (hrun : h (Next hs (fuel + 1)) c.incIndex = some c1)
    (hend : (hs.length : Int) ≤ c1.index + 1) :
    Next hs (fuel + 2) c = some c1.incIndex := by
  have e1 : Next hs (fuel + 2) c
      = nextLoop hs (Next hs (fuel + 1)) (fuel + 2) c.incIndex := rfl
  rw [e1, nextLoop_run hs _ (fuel + 1) c.incIndex i h hi hget, hrun]
  exact nextLoop_done hs _ fuel _ hend

/-- After `Abort`, `Next` runs no handler: the index is past the end of every chain gin
accepts (fewer than `abortIndex` handlers). -/
theorem Next_aborted (hs : List HandlerFunc) (fuel : Nat) (c : Context)
    (h : (hs.length : Int) ≤ c.index + 1) :
    Next hs (fuel + 1) c = some c.incIndex := by
  have e1 : Next hs (fuel + 1) c = nextLoop hs (Next hs fuel) (fuel + 1) c.incIndex := rfl
  rw [e1]
  exact nextLoop_done hs _ fuel _ h

/-- Function `Cors` ends by calling `c.Next()`. -/
theorem Cors_body (next : Context → Option Context) (c : Context) :
    Cors next c = next (bodyOf Cors c) := rfl

/-- Function `SearchTime` ends by calling `c.Next()`. -/
theorem SearchTime_body (next : Context → Option Context) (c : Context) :
    SearchTime next c = next (bodyOf SearchTime c) := rfl

/-- Function `OrderBy` ends by calling `c.Next()`. -/
theorem OrderBy_body (next : Context → Option Context) (c : Context) :
    OrderBy next c = next (bodyOf OrderBy c) := rfl

/-- Unless the method is OPTIONS, `Cors` leaves the index alone. -/
theorem bodyOf_Cors_index (c : Context) (hm : c.Request.Method ≠ "OPTIONS") :
    (bodyOf Cors c).index = c.index := by
  simp only [bodyOf, Cors, if_neg hm, Option.getD_some]
  split <;> rfl

/-- On OPTIONS, `Cors` sets the index to `abortIndex`. -/
theorem bodyOf_Cors_index_abort (c : Context) (hm : c.Request.Method = "OPTIONS") :
    (bodyOf Cors c).index = 63 := by
  simp only [bodyOf, Cors, if_pos hm, Option.getD_some]
  split <;> rfl

/-- Function `Cors` leaves the request alone. -/
theorem bodyOf_Cors_Request (c : Context) : (bodyOf Cors c).Request = c.Request := by
  simp only [bodyOf, Cors, Option.getD_some]
  split <;> split <;> rfl

/-- On GET, `SearchTime` leaves the index alone. -/
theorem bodyOf_SearchTime_index (c : Context) (hm : c.Request.Method = "GET") :
    (bodyOf SearchTime c).index = c.index := by
  simp only [bodyOf, SearchTime, hm, ne_eq, not_true_eq_false, if_false, Option.getD_some]
  split <;> rfl

/-- Unless the method is GET, `SearchTime` sets the index to `abortIndex`. -/
theorem bodyOf_SearchTime_index_abort (c : Context) (hm : c.Request.Method ≠ "GET") :
    (bodyOf SearchTime c).index = 63 := by
  simp only [bodyOf, SearchTime, ne_eq, hm, not_false_eq_true, if_true, Option.getD_some]
  split <;> rfl

/-- Function `OrderBy` leaves the index alone. -/
theorem bodyOf_OrderBy_index (c : Context) : (bodyOf OrderBy c).index = c.index := rfl

/-- On GET, the handler after the five engine handlers is the one at index 5. -/
theorem afterMiddleware_index (c : Context) (hm : c.Request.Method = "GET") (hi : c.index = -1) :
    (afterMiddleware c).index = 4 := by
  have h1 : c.incIndex.incIndex.incIndex.Request.Method ≠ "OPTIONS" := by
    show c.Request.Method ≠ "OPTIONS"
    rw [hm]; decide
  have h2 : (bodyOf Cors c.incIndex.incIndex.incIndex).incIndex.Request.Method = "GET" := by
    show (bodyOf Cors c.incIndex.incIndex.incIndex).Request.Method = "GET"
    rw [bodyOf_Cors_Request]; exact hm
  unfold afterMiddleware
  rw [bodyOf_OrderBy_index]
  show (bodyOf SearchTime (bodyOf Cors c.incIndex.incIndex.incIndex).incIndex).index + 1 = 4
  rw [bodyOf_SearchTime_index _ h2]
  show (bodyOf Cors c.incIndex.incIndex.incIndex).index + 1 + 1 = 4
  rw [bodyOf_Cors_index _ h1]
  show c.index + 1 + 1 + 1 + 1 + 1 = 4
  rw [hi]; rfl

/-- Five increments of the index. -/
theorem bump_five (x : Context) :
    x.incIndex.incIndex.incIndex.incIndex.incIndex = x.bump 5 := by
  simp only [Context.incIndex, Context.bump]
  congr 1
  omega

/-- Five increments of the index, on the result of a run. -/
theorem map_bump_five (r : Option Context) :
    (((((r.map Context.incIndex).map Context.incIndex).map Context.incIndex).map
      Context.incIndex).map Context.incIndex) = r.map (fun x => x.bump 5) := by
  cases r with
  | none => rfl
  | some x => simp only [Option.map_some', bump_five]

/-- A GET request passes the five engine handlers; the rest of the chain starts on
`afterMiddleware c`. -/
theorem Next_middleware_GET (rest : List HandlerFunc) (fuel : Nat) (c : Context)
    (hm : c.Request.Method = "GET") (hi : c.index = -1) :
    Next (middleware ++ rest) (fuel + 6) c
      = (Next (middleware ++ rest) (fuel + 1) (afterMiddleware c)).map (fun x => x.bump 5) := by
  have h1 : c.incIndex.incIndex.incIndex.Request.Method ≠ "OPTIONS" := by
    show c.Request.Method ≠ "OPTIONS"
    rw [hm]; decide
  have h2 : (bodyOf Cors c.incIndex.incIndex.incIndex).incIndex.Request.Method = "GET" := by
    show (bodyOf Cors c.incIndex.incIndex.incIndex).Request.Method = "GET"
    rw [bodyOf_Cors_Request]; exact hm
  have s1 := Next_tail (middleware ++ rest) Logger id 0 (fuel + 4) c rfl (fun _ _ => rfl)
    (by rw [hi]; rfl)
  have s2 := Next_tail (middleware ++ rest) Recovery id 1 (fuel + 3) c.incIndex rfl
    (fun _ _ => rfl) (by show c.index + 1 + 1 = _; rw [hi]; rfl)
  have s3 := Next_tail (middleware ++ rest) Cors (bodyOf Cors) 2 (fuel + 2) c.incIndex.incIndex
    rfl Cors_body (by show c.index + 1 + 1 + 1 = _; rw [hi]; rfl)
  have s4 := Next_tail (middleware ++ rest) SearchTime (bodyOf SearchTime) 3 (fuel + 1)
    (bodyOf Cors c.incIndex.incIndex.incIndex) rfl SearchTime_body
    (by rw [bodyOf_Cors_index _ h1]; show c.index + 1 + 1 + 1 + 1 = _; rw [hi]; rfl)
  have s5 := Next_tail (middleware ++ rest) OrderBy (bodyOf OrderBy) 4 fuel
    (bodyOf SearchTime (bodyOf Cors c.incIndex.incIndex.incIndex).incIndex)
    (by simp [middleware]) OrderBy_body
    (by
      rw [bodyOf_SearchTime_index _ h2]
      show (bodyOf Cors c.incIndex.incIndex.incIndex).index + 1 + 1 = _
      rw [bodyOf_Cors_index _ h1]
      show c.index + 1 + 1 + 1 + 1 + 1 = _
      rw [hi]; rfl)
  simp only [id] at s1 s2
  rw [s1, s2, s3, s4, s5]
  unfold afterMiddleware
  exact map_bump_five _

/-- The context with which `Cors` calls `c.Next()` when the method is not OPTIONS. -/
theorem bodyOf_Cors_eq (c : Context) (hm : c.Request.Method ≠ "OPTIONS") :
    bodyOf Cors c =
      { c with Writer := { c.Writer with
          header := if c.GetHeader "Origin" ≠ "" then corsHeaders c.Writer.header
            else c.Writer.header } } := by
  simp only [bodyOf, Cors, if_neg hm, Option.getD_some]
  by_cases ho : c.GetHeader "Origin" = ""
  · simp [ho]
  · simp [ho, Context.Header, corsHeaders]

/-- The context with which `Cors` calls `c.Next()` on OPTIONS. -/
theorem bodyOf_Cors_abort (c : Context) (hm : c.Request.Method = "OPTIONS") :
    bodyOf Cors c =
      { c with
        Writer := { (c.Writer.WriteHeader StatusNoContent).WriteHeaderNow with
          header := if c.GetHeader "Origin" ≠ "" then
              corsHeaders (c.Writer.WriteHeader StatusNoContent).WriteHeaderNow.header
            else (c.Writer.WriteHeader StatusNoContent).WriteHeaderNow.header }
        index := 63 } := by
  simp only [bodyOf, Cors, if_pos hm, Option.getD_some]
  have hg : (c.AbortWithStatus StatusNoContent).GetHeader "Origin" = c.GetHeader "Origin" := rfl
  rw [hg]
  by_cases ho : c.GetHeader "Origin" = ""
  · simp [ho, Context.AbortWithStatus, Context.Abort, Context.Status, abortIndex]
  · simp [ho, Context.Header, corsHeaders, Context.AbortWithStatus, Context.Abort,
      Context.Status, abortIndex]

/-- The context with which `SearchTime` calls `c.Next()` on GET. -/
theorem bodyOf_SearchTime_eq (c : Context) (hm : c.Request.Method = "GET") :
    bodyOf SearchTime c =
      { c with
        Keys := if c.Query "start_time" ≠ "" ∨ c.Query "end_time" ≠ "" then
            c.Keys.set "where" (whereSql (c.Query "start_time") (c.Query "end_time"))
          else c.Keys } := by
  simp only [bodyOf, SearchTime, hm, ne_eq, not_true_eq_false, if_false, Option.getD_some]
  by_cases h : c.Query "start_time" = "" <;> by_cases h' : c.Query "end_time" = "" <;>
    simp [h, h', whereSql, Context.Set]

/-- The context with which `SearchTime` calls `c.Next()` when the method is not GET. -/
theorem bodyOf_SearchTime_abort (c : Context) (hm : c.Request.Method ≠ "GET") :
    bodyOf SearchTime c =
      { c with
        Writer := (c.Writer.WriteHeader StatusNoContent).WriteHeaderNow
        Keys := if c.Query "start_time" ≠ "" ∨ c.Query "end_time" ≠ "" then
            c.Keys.set "where" (whereSql (c.Query "start_time") (c.Query "end_time"))
          else c.Keys
        index := 63 } := by
  simp only [bodyOf, SearchTime, ne_eq, hm, not_false_eq_true, if_true, Option.getD_some]
  have h1 : (c.AbortWithStatus StatusNoContent).Query "start_time" = c.Query "start_time" := rfl
  have h2 : (c.AbortWithStatus StatusNoContent).Query "end_time" = c.Query "end_time" := rfl
  rw [h1, h2]
  by_cases h : c.Query "start_time" = "" <;> by_cases h' : c.Query "end_time" = "" <;>
    simp [h, h', whereSql, Context.Set, Context.AbortWithStatus, Context.Abort, Context.Status,
      abortIndex]

/-- The context with which `OrderBy` calls `c.Next()`. -/
theorem bodyOf_OrderBy_eq (c : Context) :
    bodyOf OrderBy c = { c with Keys := c.Keys.set "order" "order by id asc" } := rfl

/-- The context after the three stages, on GET. -/
theorem afterMiddleware_GET (c : Context) (hm : c.Request.Method = "GET") :
    afterMiddleware c =
      { c with
        Writer := { c.Writer with
          header := if c.GetHeader "Origin" ≠ "" then corsHeaders c.Writer.header
            else c.Writer.header }
        Keys := StrMap.set
          (if c.Query "start_time" ≠ "" ∨ c.Query "end_time" ≠ "" then
            c.Keys.set "where" (whereSql (c.Query "start_time") (c.Query "end_time"))
          else c.Keys) "order" "order by id asc"
        index := c.index + 5 } := by
  have h0 : c.incIndex.incIndex.incIndex.Request.Method ≠ "OPTIONS" := by
    show c.Request.Method ≠ "OPTIONS"
    rw [hm]; decide
  have h1 : (bodyOf Cors c.incIndex.incIndex.incIndex).incIndex.Request.Method = "GET" := by
    show (bodyOf Cors c.incIndex.incIndex.incIndex).Request.Method = "GET"
    rw [bodyOf_Cors_Request]; exact hm
  unfold afterMiddleware
  rw [bodyOf_OrderBy_eq, bodyOf_SearchTime_eq _ h1, bodyOf_Cors_eq _ h0]
  simp only [Context.incIndex, Context.GetHeader, Context.Query]
  congr 1
  omega

/-- The context the `/:algo` handler returns. -/
theorem algoHandler_body (DB : Database) (next : Context → Option Context) (c : Context) :
    algoHandler DB next c = some (bodyOf (algoHandler DB) c) := by
  simp only [bodyOf, algoHandler]
  split
  · rfl
  · split <;> rfl

/-- The gin `Context.JSON` does not lower the index. -/
theorem JSON_index_le (c : Context) (code : Nat) (rows : List Row) (h : c.index ≤ 63) :
    c.index ≤ (c.JSON code rows).index := by
  unfold Context.JSON
  simp only
  split
  · exact h
  · exact le_refl _

/-- The `/:algo` handler does not lower the index. -/
theorem algoHandler_index (DB : Database) (c : Context) (h : c.index ≤ 63) :
    c.index ≤ (bodyOf (algoHandler DB) c).index := by
  simp only [bodyOf, algoHandler]
  split
  · exact h
  · split
    · exact le_refl _
    · exact JSON_index_le _ _ _ h

/-- Six increments of the index. -/
theorem incIndex_bump_five (x : Context) : (x.incIndex).bump 5 = x.bump 6 := by
  simp only [Context.incIndex, Context.bump]
  congr 1
  omega

/-- The route chain on a GET request: the three stages, then the handler. -/
theorem Next_routeChain_GET (DB : Database) (fuel : Nat) (c : Context)
    (hm : c.Request.Method = "GET") (hi : c.index = -1) :
    Next (routeChain DB) (fuel + 7) c
      = some ((bodyOf (algoHandler DB) (afterMiddleware c).incIndex).bump 6) := by
  have hidx := afterMiddleware_index c hm hi
  have h5 : (afterMiddleware c).incIndex.index = 5 := by
    show (afterMiddleware c).index + 1 = 5
    rw [hidx]; rfl
  have h6 : (5 : Int) ≤ (bodyOf (algoHandler DB) (afterMiddleware c).incIndex).index := by
    have := algoHandler_index DB (afterMiddleware c).incIndex (by rw [h5]; decide)
    rw [h5] at this
    exact this
  have hend : ((middleware ++ [algoHandler DB]).length : Int)
      ≤ (bodyOf (algoHandler DB) (afterMiddleware c).incIndex).index + 1 := by
    have hl : ((middleware ++ [algoHandler DB]).length : Int) = 6 := rfl
    rw [hl]
    generalize (bodyOf (algoHandler DB) (afterMiddleware c).incIndex).index = k at h6
    omega
  have hget : (middleware ++ [algoHandler DB])[5]? = some (algoHandler DB) := by
    simp [middleware]
  have l := Next_last (middleware ++ [algoHandler DB]) (algoHandler DB) 5 fuel
    (afterMiddleware c) (bodyOf (algoHandler DB) (afterMiddleware c).incIndex)
    hget (by rw [hidx]; rfl) (algoHandler_body DB _ _) hend
  have e := Next_middleware_GET [algoHandler DB] (fuel + 1) c hm hi
  unfold routeChain
  rw [e, l, Option.map_some', incIndex_bump_five]

/-- The engine on a GET request that matches the route: the handler runs on `handlerEntry`.
-/
theorem handleHTTPRequest_GET (DB : Database) (fuel : Nat) (req : Request) (algo : String)
    (hm : req.Method = "GET") (hr : req.route = some algo) :
    handleHTTPRequest DB (fuel + 7) req =
      some { (bodyOf (algoHandler DB) (handlerEntry req algo)).bump 6 with
        Writer := (bodyOf (algoHandler DB) (handlerEntry req algo)).Writer.WriteHeaderNow } := by
  have hm0 : ({ newContext req with Params := [("algo", algo)] } : Context).Request.Method
      = "GET" := hm
  have e := Next_routeChain_GET DB fuel { newContext req with Params := [("algo", algo)] } hm0 rfl
  have a := afterMiddleware_GET { newContext req with Params := [("algo", algo)] } hm0
  have ent : (afterMiddleware { newContext req with Params := [("algo", algo)] }).incIndex
      = handlerEntry req algo := by
    rw [a]
    simp only [Context.incIndex, handlerEntry, newContext, Context.GetHeader, Context.Query]
    rfl
  rw [ent] at e
  simp only [handleHTTPRequest, hm, hr, if_true, e]
  rfl

/-- The dispatch switch takes its `default` branch exactly off the five names. -/
theorem dispatch_eq_none (algo : String) :
    dispatch algo = none ↔
      algo ∉ ["symmetric_encryption", "digest", "key_exchange", "signature", "phe"] := by
  unfold dispatch
  constructor
  · intro h
    split_ifs at h
    simp [*]
  · intro h
    simp only [List.mem_cons, List.mem_singleton, List.not_mem_nil, or_false, not_or] at h
    simp [h.1, h.2.1, h.2.2.1, h.2.2.2.1, h.2.2.2.2]

/-- The dispatch switch selects a destination shape for each of the five names. -/
theorem dispatch_isSome (algo : String)
    (h : algo ∈ ["symmetric_encryption", "digest", "key_exchange", "signature", "phe"]) :
    ∃ r, dispatch algo = some r := by
  cases hd : dispatch algo with
  | none => exact absurd h ((dispatch_eq_none algo).mp hd)
  | some r => exact ⟨r, rfl⟩

/-- The path parameter at the entry of the handler. -/
theorem handlerEntry_Param (req : Request) (algo : String) :
    (handlerEntry req algo).Param "algo" = algo := by
  simp [handlerEntry, Context.Param, StrMap.get, List.lookup]

/-- The handler on an unrecognized name. -/
theorem algoHandler_none (DB : Database) (c : Context)
    (hd : dispatch (c.Param "algo") = none) :
    bodyOf (algoHandler DB) c = c.AbortWithStatus StatusNotFound := by
  simp only [bodyOf, algoHandler, hd, Option.getD_some]

/-- The handler on a recognized name, for either outcome of the query. -/
theorem algoHandler_some (DB : Database) (c : Context) (r : Records)
    (hd : dispatch (c.Param "algo") = some r) :
    bodyOf (algoHandler DB) c =
      match DB r (sqlOf c) with
      | Except.error _ => { c with queries := c.queries ++ [sqlOf c] }
      | Except.ok rows => Context.JSON { c with queries := c.queries ++ [sqlOf c] } StatusOK rows := by
  simp only [bodyOf, algoHandler, hd, sqlOf]
  split <;> rfl

/-- Go `json.Marshal` on rows without unsupported values. -/
theorem Marshal_ok (rows : List Row) (hr : rowsSupported rows = true) :
    Marshal rows = Except.ok (Body.json rows) := by
  simp [Marshal, hr]

/-- Go `json.Marshal` on rows with an unsupported value. -/
theorem Marshal_error (rows : List Row) (hr : rowsSupported rows = false) :
    Marshal rows = Except.error "json: unsupported value" := by
  simp [Marshal, hr]

/-- The context after `c.JSON(http.StatusOK, rows)` on a response not yet written, when
the rows are encoded. -/
theorem JSON_ok (c : Context) (rows : List Row) (hw : c.Writer.written = false)
    (hs : c.Writer.status = 200) (hr : rowsSupported rows = true) :
    c.JSON StatusOK rows =
      { c with
        Writer :=
          { status := 200, written := true,
            header := if c.Writer.header.lookup "Content-Type" = none then
                c.Writer.header.set "Content-Type" "application/json; charset=utf-8"
              else c.Writer.header,
            sent := some (200,
              if c.Writer.header.lookup "Content-Type" = none then
                c.Writer.header.set "Content-Type" "application/json; charset=utf-8"
              else c.Writer.header),
            body := c.Writer.body ++ [Body.json rows] } } := by
  by_cases h : c.Writer.header.lookup "Content-Type" = none <;>
    simp [Context.JSON, Marshal_ok rows hr, Context.Status, ResponseWriter.WriteHeader,
      ResponseWriter.Write, ResponseWriter.WriteHeaderNow, ResponseWriter.Written, StatusOK, h,
      hw, hs]

/-- The context after `c.JSON(http.StatusOK, rows)` when the rows cannot be encoded: the
content type is set, nothing is written, the error is attached and the chain aborted. -/
theorem JSON_unsupported (c : Context) (rows : List Row) (hs : c.Writer.status = 200)
    (hr : rowsSupported rows = false) :
    c.JSON StatusOK rows =
      { c with
        Writer := { c.Writer with
          header := if c.Writer.header.lookup "Content-Type" = none then
              c.Writer.header.set "Content-Type" "application/json; charset=utf-8"
            else c.Writer.header }
        index := 63
        Errors := c.Errors ++ ["json: unsupported value"] } := by
  obtain ⟨rq, pr, ⟨st, wr, hd, se, bd⟩, ks, ix, qs, es⟩ := c
  simp only at hs
  subst hs
  by_cases h : List.lookup "Content-Type" hd = none <;>
    simp [Context.JSON, Marshal_error rows hr, Context.Status, ResponseWriter.WriteHeader,
      Context.Error, Context.Abort, abortIndex, StatusOK, h]

/-- An increment after `n` increments. -/
theorem bump_incIndex (x : Context) (n : Nat) : (x.bump n).incIndex = x.bump (n + 1) := by
  simp only [Context.incIndex, Context.bump]
  congr 1
  push_cast
  omega

/-- One increment of the index. -/
theorem incIndex_eq_bump (x : Context) : x.incIndex = x.bump 1 := rfl

/-- An OPTIONS request is aborted by `Cors`: the chain ends there. -/
theorem Next_middleware_OPTIONS (rest : List HandlerFunc) (fuel : Nat) (c : Context)
    (hm : c.Request.Method = "OPTIONS") (hi : c.index = -1) (hlen : rest.length ≤ 58) :
    Next (middleware ++ rest) (fuel + 4) c
      = some ((bodyOf Cors c.incIndex.incIndex.incIndex).bump 4) := by
  have h0 : c.incIndex.incIndex.incIndex.Request.Method = "OPTIONS" := hm
  have hab : ((middleware ++ rest).length : Int)
      ≤ (bodyOf Cors c.incIndex.incIndex.incIndex).index + 1 := by
    rw [bodyOf_Cors_index_abort _ h0]
    have hl : ((middleware ++ rest).length : Int) = 5 + rest.length := by
      simp only [middleware, List.length_append, List.length_cons, List.length_nil]
      push_cast
      ring
    rw [hl]
    omega
  have s4 := Next_aborted (middleware ++ rest) fuel _ hab
  have s1 := Next_tail (middleware ++ rest) Logger id 0 (fuel + 2) c rfl (fun _ _ => rfl)
    (by rw [hi]; rfl)
  have s2 := Next_tail (middleware ++ rest) Recovery id 1 (fuel + 1) c.incIndex rfl
    (fun _ _ => rfl) (by show c.index + 1 + 1 = _; rw [hi]; rfl)
  have s3 := Next_tail (middleware ++ rest) Cors (bodyOf Cors) 2 fuel c.incIndex.incIndex
    rfl Cors_body (by show c.index + 1 + 1 + 1 = _; rw [hi]; rfl)
  simp only [id] at s1 s2
  rw [s1, s2, s3, s4]
  simp only [Option.map_some', incIndex_eq_bump (bodyOf Cors _), bump_incIndex]

/-- A request that is neither OPTIONS nor GET is aborted by `SearchTime`. -/
theorem Next_middleware_other (rest : List HandlerFunc) (fuel : Nat) (c : Context)
    (hm1 : c.Request.Method ≠ "OPTIONS") (hm2 : c.Request.Method ≠ "GET") (hi : c.index = -1)
    (hlen : rest.length ≤ 58) :
    Next (middleware ++ rest) (fuel + 5) c
      = some ((bodyOf SearchTime (bodyOf Cors c.incIndex.incIndex.incIndex).incIndex).bump 5) := by
  have h0 : c.incIndex.incIndex.incIndex.Request.Method ≠ "OPTIONS" := hm1
  have h2 : (bodyOf Cors c.incIndex.incIndex.incIndex).incIndex.Request.Method ≠ "GET" := by
    show (bodyOf Cors c.incIndex.incIndex.incIndex).Request.Method ≠ "GET"
    rw [bodyOf_Cors_Request]; exact hm2
  have hab : ((middleware ++ rest).length : Int)
      ≤ (bodyOf SearchTime (bodyOf Cors c.incIndex.incIndex.incIndex).incIndex).index + 1 := by
    rw [bodyOf_SearchTime_index_abort _ h2]
    have hl : ((middleware ++ rest).length : Int) = 5 + rest.length := by
      simp only [middleware, List.length_append, List.length_cons, List.length_nil]
      push_cast
      ring
    rw [hl]
    omega
  have s5 := Next_aborted (middleware ++ rest) fuel _ hab
  have s1 := Next_tail (middleware ++ rest) Logger id 0 (fuel + 3) c rfl (fun _ _ => rfl)
    (by rw [hi]; rfl)
  have s2 := Next_tail (middleware ++ rest) Recovery id 1 (fuel + 2) c.incIndex rfl
    (fun _ _ => rfl) (by show c.index + 1 + 1 = _; rw [hi]; rfl)
  have s3 := Next_tail (middleware ++ rest) Cors (bodyOf Cors) 2 (fuel + 1) c.incIndex.incIndex
    rfl Cors_body (by show c.index + 1 + 1 + 1 = _; rw [hi]; rfl)
  have s4 := Next_tail (middleware ++ rest) SearchTime (bodyOf SearchTime) 3 fuel
    (bodyOf Cors c.incIndex.incIndex.incIndex) rfl SearchTime_body
    (by rw [bodyOf_Cors_index _ h0]; show c.index + 1 + 1 + 1 + 1 = _; rw [hi]; rfl)
  simp only [id] at s1 s2
  rw [s1, s2, s3, s4, s5]
  simp only [Option.map_some', incIndex_eq_bump (bodyOf SearchTime _), bump_incIndex]

/-- A GET request that matches no route passes the three stages of `allNoRoute`. -/
theorem Next_allNoRoute_GET (fuel : Nat) (c : Context)
    (hm : c.Request.Method = "GET") (hi : c.index = -1) :
    Next allNoRoute (fuel + 7) c = some ((afterMiddleware c).bump 6) := by
  have hidx := afterMiddleware_index c hm hi
  have hab : (((middleware ++ []) : List HandlerFunc).length : Int)
      ≤ (afterMiddleware c).index + 1 := by
    rw [hidx]; decide
  have s := Next_aborted (middleware ++ []) fuel _ hab
  have e := Next_middleware_GET [] (fuel + 1) c hm hi
  have hn : allNoRoute = middleware ++ [] := by simp [allNoRoute]
  rw [hn, e]
  have s' := Next_aborted (middleware ++ []) (fuel + 1) _ hab
  rw [s', Option.map_some', incIndex_bump_five]

/-- The context at the entry of the handler, written with `corsOf` and `whereOf`. -/
theorem handlerEntry_eq (req : Request) (algo : String) :
    handlerEntry req algo =
      { Request := req, Params := [("algo", algo)],
        Writer := { status := 200, written := false, header := corsOf req, sent := none,
                    body := [] },
        Keys := StrMap.set (whereOf req) "order" "order by id asc",
        index := 5, queries := [], Errors := [] } := rfl

/-- The engine on an OPTIONS request. -/
theorem handleHTTPRequest_OPTIONS (DB : Database) (fuel : Nat) (req : Request)
    (hm : req.Method = "OPTIONS") :
    handleHTTPRequest DB (fuel + 7) req =
      some { Request := req, Params := [],
             Writer := { status := 204, written := true, header := corsOf req,
                         sent := some (204, []), body := [] },
             Keys := [], index := 67, queries := [], Errors := [] } := by
  have hne : req.Method ≠ "GET" := by rw [hm]; decide
  have e := Next_middleware_OPTIONS [] (fuel + 3)
    { newContext req with Writer := { (newContext req).Writer with status := StatusNotFound } }
    hm rfl (by decide)
  have hn : allNoRoute = middleware ++ [] := by simp [allNoRoute]
  have h0 : ({ newContext req with Writer := { (newContext req).Writer with
      status := StatusNotFound } } : Context).incIndex.incIndex.incIndex.Request.Method
        = "OPTIONS" := hm
  rw [bodyOf_Cors_abort _ h0] at e
  simp only [handleHTTPRequest, hne, if_false, serveError, hn, e]
  simp [Context.bump, Context.incIndex, newContext, ResponseWriter.WriteHeader,
    ResponseWriter.WriteHeaderNow, ResponseWriter.Written, StatusNoContent, StatusNotFound,
    Context.GetHeader, corsOf]

/-- The engine on a request that is neither OPTIONS nor GET. -/
theorem handleHTTPRequest_other (DB : Database) (fuel : Nat) (req : Request)
    (hm1 : req.Method ≠ "OPTIONS") (hm2 : req.Method ≠ "GET") :
    handleHTTPRequest DB (fuel + 7) req =
      some { Request := req, Params := [],
             Writer := { status := 204, written := true, header := corsOf req,
                         sent := some (204, corsOf req), body := [] },
             Keys := whereOf req, index := 68, queries := [], Errors := [] } := by
  have e := Next_middleware_other [] (fuel + 2)
    { newContext req with Writer := { (newContext req).Writer with status := StatusNotFound } }
    hm1 hm2 rfl (by decide)
  have hn : allNoRoute = middleware ++ [] := by simp [allNoRoute]
  have h0 : ({ newContext req with Writer := { (newContext req).Writer with
      status := StatusNotFound } } : Context).incIndex.incIndex.incIndex.Request.Method
        ≠ "OPTIONS" := hm1
  have h1 : (bodyOf Cors ({ newContext req with Writer := { (newContext req).Writer with
      status := StatusNotFound } } : Context).incIndex.incIndex.incIndex).incIndex.Request.Method
        ≠ "GET" := by
    show (bodyOf Cors _).Request.Method ≠ "GET"
    rw [bodyOf_Cors_Request]; exact hm2
  rw [bodyOf_SearchTime_abort _ h1, bodyOf_Cors_eq _ h0] at e
  simp only [handleHTTPRequest, hm2, if_false, serveError, hn, e]
  simp [Context.bump, Context.incIndex, newContext, ResponseWriter.WriteHeader,
    ResponseWriter.WriteHeaderNow, ResponseWriter.Written, StatusNoContent, StatusNotFound,
    Context.GetHeader, Context.Query, corsOf, whereOf]

/-- The engine on a GET request that matches no route. -/
theorem handleHTTPRequest_noRoute (DB : Database) (fuel : Nat) (req : Request)
    (hm : req.Method = "GET") (hr : req.route = none) :
    handleHTTPRequest DB (fuel + 7) req =
      some { Request := req, Params := [],
             Writer := { status := 404, written := true,
                         header := (corsOf req).set "Content-Type" "text/plain",
                         sent := some (404, (corsOf req).set "Content-Type" "text/plain"),
                         body := [Body.text "404 page not found"] },
             Keys := StrMap.set (whereOf req) "order" "order by id asc",
             index := 10, queries := [], Errors := [] } := by
  have hm0 : ({ newContext req with Writer := { (newContext req).Writer with
      status := StatusNotFound } } : Context).Request.Method = "GET" := hm
  have e := Next_allNoRoute_GET fuel _ hm0 rfl
  rw [afterMiddleware_GET _ hm0] at e
  simp only [handleHTTPRequest, hm, hr, if_true, serveError, e]
  simp [Context.bump, newContext, ResponseWriter.WriteHeaderNow, ResponseWriter.Write,
    ResponseWriter.Written, StatusNotFound, Context.GetHeader, Context.Query, corsOf, whereOf]

/-- The format of the handler, evaluated. -/
theorem Sprintf_select (a w o : String) :
    Sprintf "select * from %s %s %s" [Arg.s a, Arg.s w, Arg.s o]
      = "select * from " ++ a ++ " " ++ w ++ " " ++ o := rfl

/-- The `order` value at the entry of the handler. -/
theorem lookup_order (req : Request) :
    List.lookup "order" (StrMap.set (whereOf req) "order" "order by id asc")
      = some "order by id asc" := by
  simp [StrMap.set, List.lookup]

/-- The `where` value at the entry of the handler. -/
theorem lookup_where (req : Request) :
    (match List.lookup "where" (StrMap.set (whereOf req) "order" "order by id asc") with
      | some val => val
      | none => "") = whereString req := by
  unfold whereOf whereString
  by_cases h : req.Query.get "start_time" ≠ "" ∨ req.Query.get "end_time" ≠ ""
  · rw [if_pos h, if_pos h]
    simp [StrMap.set, List.lookup, List.filter]
  · rw [if_neg h, if_neg h]
    simp [StrMap.set, List.lookup, List.filter]

/-- The statement the handler assembles on a GET request. -/
theorem sqlOf_handlerEntry (req : Request) (algo : String) :
    sqlOf (handlerEntry req algo)
      = "select * from " ++ algo ++ " " ++ whereString req ++ " " ++ "order by id asc" := by
  rw [sqlOf, Sprintf_select, handlerEntry_Param]
  simp only [Context.GetString, handlerEntry_eq, lookup_order, lookup_where]

/-- The engine on a GET request matched with an unrecognized parameter value. -/
theorem handleHTTPRequest_unknown (DB : Database) (fuel : Nat) (req : Request) (algo : String)
    (hm : req.Method = "GET") (hr : req.route = some algo) (hd : dispatch algo = none) :
    handleHTTPRequest DB (fuel + 7) req =
      some { Request := req, Params := [("algo", algo)],
             Writer := { status := 404, written := true, header := corsOf req,
                         sent := some (404, corsOf req), body := [] },
             Keys := StrMap.set (whereOf req) "order" "order by id asc",
             index := 69, queries := [], Errors := [] } := by
  have hd1 : dispatch ((handlerEntry req algo).Param "algo") = none := by
    rw [handlerEntry_Param]; exact hd
  rw [handleHTTPRequest_GET DB fuel req algo hm hr, algoHandler_none DB _ hd1, handlerEntry_eq]
  simp [Context.AbortWithStatus, Context.Status, Context.Abort, ResponseWriter.WriteHeader,
    ResponseWriter.WriteHeaderNow, ResponseWriter.Written, Context.bump, StatusNotFound,
    abortIndex]

/-- The engine on a GET request for a recognized table when the query fails. -/
theorem handleHTTPRequest_error (DB : Database) (fuel : Nat) (req : Request) (algo : String)
    (r : Records) (err : String)
    (hm : req.Method = "GET") (hr : req.route = some algo) (hd : dispatch algo = some r)
    (hq : DB r ("select * from " ++ algo ++ " " ++ whereString req ++ " " ++ "order by id asc")
      = Except.error err) :
    handleHTTPRequest DB (fuel + 7) req =
      some { Request := req, Params := [("algo", algo)],
             Writer := { status := 200, written := true, header := corsOf req,
                         sent := some (200, corsOf req), body := [] },
             Keys := StrMap.set (whereOf req) "order" "order by id asc",
             index := 11,
             queries := ["select * from " ++ algo ++ " " ++ whereString req ++ " " ++
               "order by id asc"],
             Errors := [] } := by
  have hd1 : dispatch ((handlerEntry req algo).Param "algo") = some r := by
    rw [handlerEntry_Param]; exact hd
  rw [handleHTTPRequest_GET DB fuel req algo hm hr, algoHandler_some DB _ r hd1,
    sqlOf_handlerEntry, hq, handlerEntry_eq]
  simp [ResponseWriter.WriteHeaderNow, ResponseWriter.Written, Context.bump]

/-- The response header map of a GET request has no `Content-Type` before the handler. -/
theorem lookup_contentType_corsOf (req : Request) :
    List.lookup "Content-Type" (corsOf req) = none := by
  unfold corsOf
  split <;> simp [corsHeaders, StrMap.set, List.lookup]

/-- The engine on a GET request for a recognized table when the query succeeds and the
rows are encoded. -/
theorem handleHTTPRequest_ok (DB : Database) (fuel : Nat) (req : Request) (algo : String)
    (r : Records) (rows : List Row)
    (hm : req.Method = "GET") (hr : req.route = some algo) (hd : dispatch algo = some r)
    (hq : DB r ("select * from " ++ algo ++ " " ++ whereString req ++ " " ++ "order by id asc")
      = Except.ok rows) (hsup : rowsSupported rows = true) :
    handleHTTPRequest DB (fuel + 7) req =
      some { Request := req, Params := [("algo", algo)],
             Writer := { status := 200, written := true,
                         header := (corsOf req).set "Content-Type" "application/json; charset=utf-8",
                         sent := some (200,
                           (corsOf req).set "Content-Type" "application/json; charset=utf-8"),
                         body := [Body.json rows] },
             Keys := StrMap.set (whereOf req) "order" "order by id asc",
             index := 11,
             queries := ["select * from " ++ algo ++ " " ++ whereString req ++ " " ++
               "order by id asc"],
             Errors := [] } := by
  have hd1 : dispatch ((handlerEntry req algo).Param "algo") = some r := by
    rw [handlerEntry_Param]; exact hd
  have hct := lookup_contentType_corsOf req
  rw [handleHTTPRequest_GET DB fuel req algo hm hr, algoHandler_some DB _ r hd1,
    sqlOf_handlerEntry, hq, handlerEntry_eq]
  simp only
  rw [JSON_ok _ rows rfl rfl hsup]
  simp [ResponseWriter.WriteHeaderNow, ResponseWriter.Written, Context.bump, hct]

/-- The engine on a GET request for a recognized table when the query succeeds and the
rows cannot be encoded. -/
theorem handleHTTPRequest_unsupported (DB : Database) (fuel : Nat) (req : Request)
    (algo : String) (r : Records) (rows : List Row)
    (hm : req.Method = "GET") (hr : req.route = some algo) (hd : dispatch algo = some r)
    (hq : DB r ("select * from " ++ algo ++ " " ++ whereString req ++ " " ++ "order by id asc")
      = Except.ok rows) (hsup : rowsSupported rows = false) :
    handleHTTPRequest DB (fuel + 7) req =
      some { Request := req, Params := [("algo", algo)],
             Writer := { status := 200, written := true,
                         header := (corsOf req).set "Content-Type" "application/json; charset=utf-8",
                         sent := some (200,
                           (corsOf req).set "Content-Type" "application/json; charset=utf-8"),
                         body := [] },
             Keys := StrMap.set (whereOf req) "order" "order by id asc",
             index := 69,
             queries := ["select * from " ++ algo ++ " " ++ whereString req ++ " " ++
               "order by id asc"],
             Errors := ["json: unsupported value"] } := by
  have hd1 : dispatch ((handlerEntry req algo).Param "algo") = some r := by
    rw [handlerEntry_Param]; exact hd
  have hct := lookup_contentType_corsOf req
  rw [handleHTTPRequest_GET DB fuel req algo hm hr, algoHandler_some DB _ r hd1,
    sqlOf_handlerEntry, hq, handlerEntry_eq]
  simp only
  rw [JSON_unsupported _ rows rfl hsup]
  simp [ResponseWriter.WriteHeaderNow, ResponseWriter.Written, Context.bump, hct]

/-- The `order` string of a context with the request-scoped values of a GET request. -/
theorem GetString_order (req : Request) (algo : String) (w : ResponseWriter) (i : Int)
    (q : List String) :
    Context.GetString
      { Request := req, Params := [("algo", algo)], Writer := w,
        Keys := StrMap.set (whereOf req) "order" "order by id asc", index := i, queries := q,
        Errors := [] }
      "order" = "order by id asc" := by
  simp only [Context.GetString, lookup_order]

/-- The `where` string of a context with the request-scoped values of a GET request. -/
theorem GetString_where (req : Request) (algo : String) (w : ResponseWriter) (i : Int)
    (q : List String) :
    Context.GetString
      { Request := req, Params := [("algo", algo)], Writer := w,
        Keys := StrMap.set (whereOf req) "order" "order by id asc", index := i, queries := q,
        Errors := [] }
      "where" = whereString req := by
  simp only [Context.GetString, lookup_where]

/-- The engine on a GET request matched with a recognized parameter value: the result for
either outcome of the query. -/
theorem handleHTTPRequest_recognized (DB : Database) (fuel : Nat) (req : Request)
    (algo : String) (hm : req.Method = "GET") (hr : req.route = some algo)
    (ha : algo ∈ recognizedAlgos) :
    ∃ c r, handleHTTPRequest DB (fuel + 7) req = some c ∧ dispatch algo = some r ∧
      c.GetString "where" = whereString req ∧ c.GetString "order" = "order by id asc" ∧
      c.queries = ["select * from " ++ algo ++ " " ++ whereString req ++ " " ++
        "order by id asc"] ∧
      c.Writer.sent.map Prod.fst = some 200 ∧
      (∀ err, DB r ("select * from " ++ algo ++ " " ++ whereString req ++ " " ++
        "order by id asc") = Except.error err → c.Writer.body = []) ∧
      (∀ rows, DB r ("select * from " ++ algo ++ " " ++ whereString req ++ " " ++
        "order by id asc") = Except.ok rows →
        c.Writer.body = if rowsSupported rows then [Body.json rows] else []) ∧
      c.Keys = StrMap.set (whereOf req) "order" "order by id asc" := by
  obtain ⟨r, hd⟩ := dispatch_isSome algo ha
  cases hq : DB r ("select * from " ++ algo ++ " " ++ whereString req ++ " " ++
      "order by id asc") with
  | error err =>
    refine ⟨_, r, handleHTTPRequest_error DB fuel req algo r err hm hr hd hq, hd,
      GetString_where _ _ _ _ _, GetString_order _ _ _ _ _, rfl, rfl, ?_, ?_, rfl⟩
    · intro _ _; rfl
    · intro rows h; rw [hq] at h; cases h
  | ok rows =>
    cases hsup : rowsSupported rows with
    | true =>
      refine ⟨_, r, handleHTTPRequest_ok DB fuel req algo r rows hm hr hd hq hsup, hd,
        GetString_where _ _ _ _ _, GetString_order _ _ _ _ _, rfl, rfl, ?_, ?_, rfl⟩
      · intro err h; rw [hq] at h; cases h
      · intro rows2 h
        rw [hq] at h
        cases h
        simp [hsup]
    | false =>
      refine ⟨_, r, handleHTTPRequest_unsupported DB fuel req algo r rows hm hr hd hq hsup, hd,
        ?_, ?_, rfl, rfl, ?_, ?_, rfl⟩
      · simp only [Context.GetString, lookup_where]
      · simp only [Context.GetString, lookup_order]
      · intro err h
        exact absurd (hq.symm.trans h) (by simp)
      · intro rows2 h
        rw [hq] at h
        cases h
        simp [hsup]

/-- Without time parameters the `where` string is empty. -/
theorem whereString_empty (req : Request) (hs : req.Query.get "start_time" = "")
    (he : req.Query.get "end_time" = "") : whereString req = "" := by
  simp [whereString, hs, he]

/-- The format of the lower bound, evaluated. -/
theorem Sprintf_ge (s : String) :
    Sprintf "`job_date` >= '%s'" [Arg.s s] = "`job_date` >= '" ++ s ++ "'" := rfl

/-- The format of the upper bound, evaluated. -/
theorem Sprintf_le (s : String) :
    Sprintf "`job_date` <= '%s'" [Arg.s s] = "`job_date` <= '" ++ s ++ "'" := rfl

/-- The format of the clause, evaluated. -/
theorem Sprintf_where (s : String) : Sprintf "where %s" [Arg.s s] = "where " ++ s := rfl

/-- The clause for two bounds. -/
theorem whereSql_both (s e : String) (hs : s ≠ "") (he : e ≠ "") :
    whereSql s e = "where `job_date` >= '" ++ s ++ "' and `job_date` <= '" ++ e ++ "'" := by
  simp only [whereSql, hs, he, ne_eq, not_false_eq_true, if_true, List.singleton_append, Join,
    Sprintf_ge, Sprintf_le, Sprintf_where]
  apply String.ext
  simp only [String.data_append, List.append_assoc]
  rfl

/-- The clause for a lower bound alone. -/
theorem whereSql_start (s e : String) (hs : s ≠ "") (he : e = "") :
    whereSql s e = "where `job_date` >= '" ++ s ++ "'" := by
  simp only [whereSql, hs, he, ne_eq, not_false_eq_true, not_true_eq_false, if_true, if_false,
    List.append_nil, Join, Sprintf_ge, Sprintf_where]
  apply String.ext
  simp only [String.data_append, List.append_assoc]
  rfl

/-- The clause for an upper bound alone. -/
theorem whereSql_end (s e : String) (hs : s = "") (he : e ≠ "") :
    whereSql s e = "where `job_date` <= '" ++ e ++ "'" := by
  simp only [whereSql, hs, he, ne_eq, not_false_eq_true, not_true_eq_false, if_true, if_false,
    List.nil_append, Join, Sprintf_le, Sprintf_where]
  apply String.ext
  simp only [String.data_append, List.append_assoc]
  rfl

/-- The request-scoped values with which `SearchTime` calls `c.Next()`, for any method. -/
theorem bodyOf_SearchTime_Keys (c : Context) :
    (bodyOf SearchTime c).Keys =
      if c.Query "start_time" ≠ "" ∨ c.Query "end_time" ≠ "" then
        c.Keys.set "where" (whereSql (c.Query "start_time") (c.Query "end_time"))
      else c.Keys := by
  by_cases hm : c.Request.Method = "GET"
  · rw [bodyOf_SearchTime_eq c hm]
  · rw [bodyOf_SearchTime_abort c hm]

/-- A key reads back the value just set. -/
theorem lookup_set (m : StrMap) (key value : String) :
    List.lookup key (m.set key value) = some value := by
  simp [StrMap.set, List.lookup]

/-- After the five `c.Header` calls the five headers are present. -/
theorem carriesCorsHeaders_corsHeaders (h : StrMap) : carriesCorsHeaders (corsHeaders h) := by
  simp [carriesCorsHeaders, corsHeaders, StrMap.set, List.lookup, List.filter]

/-- A header map without the five headers does not carry them. -/
theorem not_both (h : StrMap) (h1 : carriesNoCorsHeader h) : ¬ carriesCorsHeaders h := by
  intro h2
  have e := h1.1.symm.trans h2.1
  cases e

/-- The gin `WriteHeaderNow` leaves the header map alone. -/
theorem WriteHeaderNow_header (w : ResponseWriter) : w.WriteHeaderNow.header = w.header := by
  unfold ResponseWriter.WriteHeaderNow
  split <;> rfl

/-- The gin `WriteHeader` leaves the header map alone. -/
theorem WriteHeader_header (w : ResponseWriter) (code : Nat) :
    (w.WriteHeader code).header = w.header := by
  unfold ResponseWriter.WriteHeader
  split
  · split <;> rfl
  · rfl

/-- The response header map with which `Cors` calls `c.Next()`, for any method. -/
theorem bodyOf_Cors_header (c : Context) :
    (bodyOf Cors c).Writer.header =
      if c.GetHeader "Origin" ≠ "" then corsHeaders c.Writer.header else c.Writer.header := by
  by_cases hm : c.Request.Method = "OPTIONS"
  · rw [bodyOf_Cors_abort c hm]
    simp only [WriteHeaderNow_header, WriteHeader_header]
  · rw [bodyOf_Cors_eq c hm]

/-- Dropping the bindings of one key does not change the lookup of another. -/
theorem lookup_filter_ne (m : StrMap) (k k1 : String) (h : k ≠ k1) :
    List.lookup k (m.filter (fun kv => kv.1 != k1)) = List.lookup k m := by
  induction m with
  | nil => rfl
  | cons a t ih =>
    obtain ⟨x, y⟩ := a
    by_cases hx : x = k1
    · subst hx
      have hk : (k == x) = false := by simpa using h
      simp [List.filter, List.lookup, hk, ih]
    · have hne : (x != k1) = true := by simpa using hx
      simp only [List.filter, hne, List.lookup]
      rw [ih]

/-- Setting one key does not change the lookup of another. -/
theorem lookup_set_ne (m : StrMap) (k k1 v : String) (h : k ≠ k1) :
    List.lookup k (m.set k1 v) = List.lookup k m := by
  have hk : (k == k1) = false := by simpa using h
  simp only [StrMap.set, List.lookup, hk]
  exact lookup_filter_ne m k k1 h

/-- Setting `Content-Type` does not change whether the five headers are present. -/
theorem carriesCorsHeaders_set (m : StrMap) (v : String) :
    carriesCorsHeaders (m.set "Content-Type" v) ↔ carriesCorsHeaders m := by
  simp only [carriesCorsHeaders]
  rw [lookup_set_ne m _ "Content-Type" v (by decide),
    lookup_set_ne m _ "Content-Type" v (by decide),
    lookup_set_ne m _ "Content-Type" v (by decide),
    lookup_set_ne m _ "Content-Type" v (by decide),
    lookup_set_ne m _ "Content-Type" v (by decide)]

/-- Setting `Content-Type` does not change whether the five headers are absent. -/
theorem carriesNoCorsHeader_set (m : StrMap) (v : String) :
    carriesNoCorsHeader (m.set "Content-Type" v) ↔ carriesNoCorsHeader m := by
  simp only [carriesNoCorsHeader]
  rw [lookup_set_ne m _ "Content-Type" v (by decide),
    lookup_set_ne m _ "Content-Type" v (by decide),
    lookup_set_ne m _ "Content-Type" v (by decide),
    lookup_set_ne m _ "Content-Type" v (by decide),
    lookup_set_ne m _ "Content-Type" v (by decide)]

/-- The empty header map has none of the five headers. -/
theorem carriesNoCorsHeader_nil : carriesNoCorsHeader [] :=
  ⟨rfl, rfl, rfl, rfl, rfl⟩

/-- The response header map and the headers sent, for every request: the map is what
`Cors` left, possibly with a `Content-Type`, and it is what was sent unless the request is
an OPTIONS request. -/
theorem handleHTTPRequest_headers (DB : Database) (fuel : Nat) (req : Request) :
    ∃ c st, handleHTTPRequest DB (fuel + 7) req = some c ∧
      (c.Writer.header = corsOf req ∨
        ∃ v, c.Writer.header = (corsOf req).set "Content-Type" v) ∧
      (c.Writer.sent = some (st, c.Writer.header) ∨
        (req.Method = "OPTIONS" ∧ c.Writer.sent = some (st, []))) := by
  by_cases hm : req.Method = "GET"
  · cases hr : req.route with
    | none =>
      exact ⟨_, 404, handleHTTPRequest_noRoute DB fuel req hm hr, Or.inr ⟨_, rfl⟩, Or.inl rfl⟩
    | some algo =>
      cases hd : dispatch algo with
      | none =>
        exact ⟨_, 404, handleHTTPRequest_unknown DB fuel req algo hm hr hd, Or.inl rfl,
          Or.inl rfl⟩
      | some r =>
        cases hq : DB r ("select * from " ++ algo ++ " " ++ whereString req ++ " " ++
            "order by id asc") with
        | error err =>
          exact ⟨_, 200, handleHTTPRequest_error DB fuel req algo r err hm hr hd hq,
            Or.inl rfl, Or.inl rfl⟩
        | ok rows =>
          cases hsup : rowsSupported rows with
          | true =>
            exact ⟨_, 200, handleHTTPRequest_ok DB fuel req algo r rows hm hr hd hq hsup,
              Or.inr ⟨_, rfl⟩, Or.inl rfl⟩
          | false =>
            exact ⟨_, 200,
              handleHTTPRequest_unsupported DB fuel req algo r rows hm hr hd hq hsup,
              Or.inr ⟨_, rfl⟩, Or.inl rfl⟩
  · by_cases ho : req.Method = "OPTIONS"
    · exact ⟨_, 204, handleHTTPRequest_OPTIONS DB fuel req ho, Or.inl rfl, Or.inr ⟨ho, rfl⟩⟩
    · exact ⟨_, 204, handleHTTPRequest_other DB fuel req ho hm, Or.inl rfl, Or.inl rfl⟩

/-- After `Cors` on a fresh response the five headers are present exactly when `Origin` is
non-empty. -/
theorem carriesCorsHeaders_corsOf (req : Request) :
    carriesCorsHeaders (corsOf req) ↔ req.Header.get "Origin" ≠ "" := by
  unfold corsOf
  by_cases ho : req.Header.get "Origin" = ""
  · rw [if_neg (not_not.mpr ho)]
    exact ⟨fun h => absurd h (not_both _ carriesNoCorsHeader_nil), fun h => absurd ho h⟩
  · rw [if_pos ho]
    exact ⟨fun _ => ho, fun _ => carriesCorsHeaders_corsHeaders _⟩

/-- After `Cors` on a fresh response of a request without `Origin` none of the five headers
is present. -/
theorem carriesNoCorsHeader_corsOf (req : Request) (ho : req.Header.get "Origin" = "") :
    carriesNoCorsHeader (corsOf req) := by
  unfold corsOf
  rw [if_neg (not_not.mpr ho)]
  exact carriesNoCorsHeader_nil

/-- The format of the DSN, evaluated. -/
theorem Sprintf_dsn (u p a d : String) (port : Int) :
    Sprintf "%s:%s@tcp(%s:%d)/%s?charset=utf8mb4&parseTime=True"
      [Arg.s u, Arg.s p, Arg.s a, Arg.d port, Arg.s d]
      = u ++ ":" ++ p ++ "@tcp(" ++ a ++ ":" ++ toString port ++ ")/" ++ d ++
        "?charset=utf8mb4&parseTime=True" := by
  apply String.ext
  simp only [Sprintf, String.toList, sprintfAux, String.data_append, String.data_push,
    List.append_assoc]
  rfl

/-- C1: a GET request routed to the `/:algo` handler whose path parameter is not one of
the five recognized names gets status 404 with no body, and no SQL statement is issued;
for each of the five names a response is sent and its status is not 404.  Holds for every
database, every request header and query, and every fuel of at least 7. -/
theorem unknown_algo_is_404 (DB : Database) (fuel : Nat) (req : Request) (algo : String)
    (hfuel : 7 ≤ fuel) (hm : req.Method = "GET") (hr : req.route = some algo) :
    ∃ c, handleHTTPRequest DB fuel req = some c ∧
      (algo ∉ recognizedAlgos →
        c.Writer.sent.map Prod.fst = some 404 ∧ c.Writer.body = [] ∧ c.queries = []) ∧
      (algo ∈ recognizedAlgos →
        ∃ code, c.Writer.sent.map Prod.fst = some code ∧ code ≠ 404) := by
  obtain ⟨k, rfl⟩ : ∃ k, fuel = k + 7 := ⟨fuel - 7, by omega⟩
  by_cases ha : algo ∈ recognizedAlgos
  · obtain ⟨c, r, hc, _, _, _, _, hs, _, _⟩ := handleHTTPRequest_recognized DB k req algo hm hr ha
    exact ⟨c, hc, fun h => absurd ha h, fun _ => ⟨200, hs, by decide⟩⟩
  · have hd := (dispatch_eq_none algo).mpr ha
    exact ⟨_, handleHTTPRequest_unknown DB k req algo hm hr hd, fun _ => ⟨rfl, rfl, rfl⟩,
      fun h => absurd h ha⟩

/-- C1, witness: a GET request for the unrecognized name `sm4` is answered with 404, no body
and no statement; a GET request for `digest` is not answered with 404. -/
theorem unknown_algo_is_404_witness :
    (7 ≤ 7 ∧ unknownRequest.Method = "GET" ∧ unknownRequest.route = some "sm4" ∧
      "sm4" ∉ recognizedAlgos ∧ digestRequest.Method = "GET" ∧
      digestRequest.route = some "digest" ∧ "digest" ∈ recognizedAlgos) ∧
    (∃ c, handleHTTPRequest emptyDB 7 unknownRequest = some c ∧
      c.Writer.sent.map Prod.fst = some 404 ∧ c.Writer.body = [] ∧ c.queries = []) ∧
    (∃ c code, handleHTTPRequest emptyDB 7 digestRequest = some c ∧
      c.Writer.sent.map Prod.fst = some code ∧ code ≠ 404) :=
  ⟨⟨by decide, rfl, rfl, by decide, rfl, rfl, by decide⟩,
    (by
      obtain ⟨c, hc, h, _⟩ :=
        unknown_algo_is_404 emptyDB 7 unknownRequest "sm4" (by decide) rfl rfl
      exact ⟨c, hc, h (by decide)⟩),
    (by
      obtain ⟨c, hc, _, h⟩ :=
        unknown_algo_is_404 emptyDB 7 digestRequest "digest" (by decide) rfl rfl
      obtain ⟨code, h1, h2⟩ := h (by decide)
      exact ⟨c, code, hc, h1, h2⟩)⟩

/-- C3: the value `SearchTime` stores under `where`, by cases on the two query values:
both non-empty, lower bound then upper bound joined by ` and `; only `start_time`, the
lower bound; only `end_time`, the upper bound; both empty, nothing is stored.  In the last
case a GET request for a recognized name has no `where` value, the handler reads the empty
string and the statement carries no date filter. -/
theorem where_clause_by_cases (c : Context) (DB : Database) (fuel : Nat) (req : Request)
    (algo : String) (hfuel : 7 ≤ fuel) :
    (∃ c1, (∀ next, SearchTime next c = next c1) ∧
      (c.Query "start_time" ≠ "" → c.Query "end_time" ≠ "" →
        c1.Keys.lookup "where" = some ("where `job_date` >= '" ++ c.Query "start_time" ++
          "' and `job_date` <= '" ++ c.Query "end_time" ++ "'")) ∧
      (c.Query "start_time" ≠ "" → c.Query "end_time" = "" →
        c1.Keys.lookup "where" = some ("where `job_date` >= '" ++ c.Query "start_time" ++ "'")) ∧
      (c.Query "start_time" = "" → c.Query "end_time" ≠ "" →
        c1.Keys.lookup "where" = some ("where `job_date` <= '" ++ c.Query "end_time" ++ "'")) ∧
      (c.Query "start_time" = "" → c.Query "end_time" = "" → c1.Keys = c.Keys)) ∧
    (req.Method = "GET" → req.route = some algo → algo ∈ recognizedAlgos →
      req.Query.get "start_time" = "" → req.Query.get "end_time" = "" →
      ∃ c2, handleHTTPRequest DB fuel req = some c2 ∧ c2.Keys.lookup "where" = none ∧
        c2.GetString "where" = "" ∧
        c2.queries = ["select * from " ++ algo ++ "  order by id asc"]) := by
  constructor
  · refine ⟨bodyOf SearchTime c, fun next => SearchTime_body next c, ?_, ?_, ?_, ?_⟩
    · intro hs he
      rw [bodyOf_SearchTime_Keys, if_pos (Or.inl hs), lookup_set, whereSql_both _ _ hs he]
    · intro hs he
      rw [bodyOf_SearchTime_Keys, if_pos (Or.inl hs), lookup_set, whereSql_start _ _ hs he]
    · intro hs he
      rw [bodyOf_SearchTime_Keys, if_pos (Or.inr he), lookup_set, whereSql_end _ _ hs he]
    · intro hs he
      rw [bodyOf_SearchTime_Keys, if_neg (by simp [hs, he])]
  · intro hm hr ha hs he
    obtain ⟨k, rfl⟩ : ∃ k, fuel = k + 7 := ⟨fuel - 7, by omega⟩
    have hw := whereString_empty req hs he
    have hwo : whereOf req = [] := by simp [whereOf, hs, he]
    have e : "select * from " ++ algo ++ " " ++ "" ++ " " ++ "order by id asc"
        = "select * from " ++ algo ++ "  order by id asc" := by
      apply String.ext
      simp only [String.data_append, List.append_assoc]
      rfl
    obtain ⟨c2, r, hc, _, hgw, _, hq, _, _, _, hk⟩ :=
      handleHTTPRequest_recognized DB k req algo hm hr ha
    refine ⟨c2, hc, ?_, ?_, ?_⟩
    · rw [hk, hwo]
      simp [StrMap.set, List.lookup]
    · rw [hgw, hw]
    · rw [hq, hw, e]

/-- C3, witness: a request with both bounds stores the two-sided clause, and a GET request
for `digest` without time parameters has no `where` value and no date filter. -/
theorem where_clause_by_cases_witness :
    (7 ≤ 7 ∧ (newContext rangeRequest).Query "start_time" ≠ "" ∧
      (newContext rangeRequest).Query "end_time" ≠ "" ∧ digestRequest.Method = "GET" ∧
      digestRequest.route = some "digest" ∧ "digest" ∈ recognizedAlgos ∧
      digestRequest.Query.get "start_time" = "" ∧ digestRequest.Query.get "end_time" = "") ∧
    (∃ c1, (∀ next, SearchTime next (newContext rangeRequest) = next c1) ∧
      c1.Keys.lookup "where" = some "where `job_date` >= 'a' and `job_date` <= 'b'") ∧
    (∃ c2, handleHTTPRequest emptyDB 7 digestRequest = some c2 ∧
      c2.Keys.lookup "where" = none ∧ c2.GetString "where" = "" ∧
      c2.queries = ["select * from digest  order by id asc"]) :=
  ⟨⟨by decide, by decide, by decide, rfl, rfl, by decide, rfl, rfl⟩,
    (by
      obtain ⟨c1, h1, h2, _⟩ :=
        (where_clause_by_cases (newContext rangeRequest) emptyDB 7 digestRequest "digest"
          (by decide)).1
      exact ⟨c1, h1, h2 (by decide) (by decide)⟩),
    (where_clause_by_cases (newContext rangeRequest) emptyDB 7 digestRequest "digest"
      (by decide)).2 rfl rfl (by decide) rfl rfl⟩

/-- C5, the code at the failing input: a preflight request with a non-empty `Origin` is
answered with status 204 and no header at all.  `Cors` has set the five headers on the
response header map, but only after `AbortWithStatus` had sent the header, so the headers
sent do not carry them. -/
theorem preflight_with_origin_is_sent_no_cors_header :
    preflightRequest.Header.get "Origin" ≠ "" ∧
    ∃ c hs, handleHTTPRequest emptyDB 7 preflightRequest = some c ∧
      c.Writer.sent = some (204, hs) ∧ hs = [] ∧ ¬ carriesCorsHeaders hs ∧
      carriesCorsHeaders c.Writer.header := by
  refine ⟨by decide, _, [], handleHTTPRequest_OPTIONS emptyDB 0 preflightRequest rfl, rfl, rfl,
    not_both _ carriesNoCorsHeader_nil, ?_⟩
  exact (carriesCorsHeaders_corsOf preflightRequest).mpr (by decide)

/-- C6, counterexample: an OPTIONS request without an `Origin` header is answered with
status 204 and an empty header map, which does not carry the five CORS headers. -/
theorem options_without_origin_carries_no_cors :
    ∃ c, handleHTTPRequest emptyDB 7 optionsRequest = some c ∧
      c.Writer.sent = some (204, []) ∧ c.Writer.header = [] ∧
      ¬ carriesCorsHeaders c.Writer.header := by
  refine ⟨_, handleHTTPRequest_OPTIONS emptyDB 0 optionsRequest rfl, rfl, rfl, ?_⟩
  intro h
  have h1 := h.1
  simp [corsOf, optionsRequest, StrMap.get, List.lookup] at h1

/-- C6, amended: every OPTIONS request is answered with status 204 and no body; `Cors` sets
the five CORS headers on the response header map if and only if the `Origin` request
header is non-empty, and when it is empty or absent the response carries none of the
five, in the header map or in the headers sent. -/
theorem options_is_204 (DB : Database) (fuel : Nat) (req : Request) (hfuel : 7 ≤ fuel)
    (hm : req.Method = "OPTIONS") :
    ∃ c, handleHTTPRequest DB fuel req = some c ∧
      c.Writer.sent.map Prod.fst = some 204 ∧ c.Writer.body = [] ∧
      (carriesCorsHeaders c.Writer.header ↔ req.Header.get "Origin" ≠ "") ∧
      (req.Header.get "Origin" = "" →
        carriesNoCorsHeader c.Writer.header ∧ c.Writer.sent = some (204, [])) := by
  obtain ⟨k, rfl⟩ : ∃ k, fuel = k + 7 := ⟨fuel - 7, by omega⟩
  refine ⟨_, handleHTTPRequest_OPTIONS DB k req hm, rfl, rfl, carriesCorsHeaders_corsOf req, ?_⟩
  intro ho
  exact ⟨carriesNoCorsHeader_corsOf req ho, rfl⟩

/-- C6, witness of the amended statement: a preflight request without `Origin`. -/
theorem options_is_204_witness :
    (7 ≤ 7 ∧ optionsRequest.Method = "OPTIONS" ∧ optionsRequest.Header.get "Origin" = "") ∧
    ∃ c, handleHTTPRequest failingDB 7 optionsRequest = some c ∧
      c.Writer.sent.map Prod.fst = some 204 ∧ c.Writer.body = [] ∧
      carriesNoCorsHeader c.Writer.header ∧ c.Writer.sent = some (204, []) :=
  ⟨⟨by decide, rfl, rfl⟩, by
    obtain ⟨c, hc, h1, h2, _, h4⟩ :=
      options_is_204 failingDB 7 optionsRequest (by decide) rfl
    exact ⟨c, hc, h1, h2, (h4 rfl).1, (h4 rfl).2⟩⟩

/-- C7: `initDB` connects with driver `mysql` and the DSN
`<username>:<password>@tcp(<addr>:<port>)/<database>?charset=utf8mb4&parseTime=True`,
where the port is 3306 when the descriptor has port 0 and the descriptor's port otherwise:
it makes exactly one call to `sqlx.Connect`, with these two arguments, and its result is
the outcome of that call, the error as it is or the handle with the two pool limits set. -/
theorem initDB_dsn (sqlx : Sqlx) (dbConf : DbConfig) :
    ∃ dsn, dsn = dbConf.Username ++ ":" ++ dbConf.Password ++ "@tcp(" ++ dbConf.Addr ++ ":" ++
        toString (if dbConf.Port = 0 then 3306 else dbConf.Port) ++ ")/" ++ dbConf.Database ++
        "?charset=utf8mb4&parseTime=True" ∧
      (initDB sqlx dbConf).1.calls = sqlx.calls ++ [("mysql", dsn)] ∧
      (initDB sqlx dbConf).1.server = sqlx.server ∧
      (∀ err, sqlx.server "mysql" dsn = Except.error err →
        (initDB sqlx dbConf).2 = Except.error err) ∧
      (∀ db, sqlx.server "mysql" dsn = Except.ok db →
        (initDB sqlx dbConf).2
          = Except.ok { dsn := db.dsn, maxOpenConns := 20, maxIdleConns := 10 }) := by
  have hp : (if dbConf.Port ≠ 0 then dbConf.Port else dbDefaultPort)
      = (if dbConf.Port = 0 then 3306 else dbConf.Port) := by
    by_cases h : dbConf.Port = 0
    · simp [h, dbDefaultPort]
    · simp [h]
  refine ⟨_, rfl, ?_, ?_, ?_, ?_⟩
  · simp only [initDB, Sprintf_dsn, hp, Sqlx.Connect]
    generalize sqlx.server "mysql" _ = res
    cases res <;> rfl
  · simp only [initDB, Sprintf_dsn, hp, Sqlx.Connect]
    generalize sqlx.server "mysql" _ = res
    cases res <;> rfl
  · intro err h
    simp only [initDB, Sprintf_dsn, hp, Sqlx.Connect, h]
  · intro db h
    simp only [initDB, Sprintf_dsn, hp, Sqlx.Connect, h]
    rfl

/-- C7, witness: a server that accepts every attempt and keeps the DSN in the handle, and
a descriptor with port 0. -/
theorem initDB_dsn_witness :
    (initDB ⟨fun _ d => Except.ok ⟨d, 0, 0⟩, []⟩ ⟨"bench", "secret", "db.local", 0, "tongsuo"⟩).1.calls
      = [("mysql", "bench:secret@tcp(db.local:3306)/tongsuo?charset=utf8mb4&parseTime=True")] ∧
    (initDB ⟨fun _ d => Except.ok ⟨d, 0, 0⟩, []⟩ ⟨"bench", "secret", "db.local", 0, "tongsuo"⟩).2
      = Except.ok ⟨"bench:secret@tcp(db.local:3306)/tongsuo?charset=utf8mb4&parseTime=True",
          20, 10⟩ := by
  obtain ⟨dsn, hdsn, hc, _, _, hok⟩ :=
    initDB_dsn ⟨fun _ d => Except.ok ⟨d, 0, 0⟩, []⟩ ⟨"bench", "secret", "db.local", 0, "tongsuo"⟩
  have hd : dsn = "bench:secret@tcp(db.local:3306)/tongsuo?charset=utf8mb4&parseTime=True" := by
    rw [hdsn]; decide
  subst hd
  exact ⟨hc, hok _ rfl⟩

/-- C8, counterexample: the query for the key exchange table succeeds with a record whose
`OpTime` is a NaN; the handler calls `c.JSON`, the encoding fails, nothing is written, and
the client gets status 200 with no body instead of the rows. -/
theorem unencodable_rows_give_empty_200 :
    ∃ c, handleHTTPRequest nanDB 7 keyExchangeRequest = some c ∧
      c.queries = ["select * from key_exchange  order by id asc"] ∧
      nanDB Records.KeyExchangeRecord "select * from key_exchange  order by id asc"
        = Except.ok nanRows ∧
      c.Writer.sent.map Prod.fst = some 200 ∧ c.Writer.body = [] ∧
      c.Writer.body ≠ [Body.json nanRows] := by
  have hw : whereString keyExchangeRequest = "" := whereString_empty _ rfl rfl
  refine ⟨_, handleHTTPRequest_unsupported nanDB 0 keyExchangeRequest "key_exchange"
    Records.KeyExchangeRecord nanRows rfl rfl rfl rfl (by decide), ?_, rfl, rfl, rfl, ?_⟩
  · rw [hw]
    decide
  · simp

/-- C8, amended: for every GET request with a recognized path parameter one statement is
executed.  When it fails the response is status 200 with no body.  When it succeeds and
the decoded rows can be encoded as JSON (no `float32` field is a NaN or an infinity) the
response is status 200 with the rows as the JSON body; when they cannot be encoded nothing
is written and the response is again status 200 with no body. -/
theorem query_failure_is_empty_200 (DB : Database) (fuel : Nat) (req : Request) (algo : String)
    (hfuel : 7 ≤ fuel) (hm : req.Method = "GET") (hr : req.route = some algo)
    (ha : algo ∈ recognizedAlgos) :
    ∃ c r sql, handleHTTPRequest DB fuel req = some c ∧ dispatch algo = some r ∧
      c.queries = [sql] ∧
      (∀ err, DB r sql = Except.error err →
        c.Writer.sent.map Prod.fst = some 200 ∧ c.Writer.body = []) ∧
      (∀ rows, DB r sql = Except.ok rows → rowsSupported rows = true →
        c.Writer.sent.map Prod.fst = some 200 ∧ c.Writer.body = [Body.json rows]) ∧
      (∀ rows, DB r sql = Except.ok rows → rowsSupported rows = false →
        c.Writer.sent.map Prod.fst = some 200 ∧ c.Writer.body = []) := by
  obtain ⟨k, rfl⟩ : ∃ k, fuel = k + 7 := ⟨fuel - 7, by omega⟩
  obtain ⟨c, r, hc, hd, _, _, hq, hs, he, hk, _⟩ :=
    handleHTTPRequest_recognized DB k req algo hm hr ha
  refine ⟨c, r, _, hc, hd, hq, fun err h => ⟨hs, he err h⟩, ?_, ?_⟩
  · intro rows h hsup
    have := hk rows h
    rw [hsup] at this
    exact ⟨hs, this⟩
  · intro rows h hsup
    have := hk rows h
    rw [hsup] at this
    exact ⟨hs, this⟩

/-- C8, witness of the amended statement: a digest request on a database where every
statement fails, and on a database without rows. -/
theorem query_failure_is_empty_200_witness :
    (7 ≤ 7 ∧ digestRequest.Method = "GET" ∧ digestRequest.route = some "digest" ∧
      "digest" ∈ recognizedAlgos ∧ rowsSupported [] = true) ∧
    (∃ c, handleHTTPRequest failingDB 7 digestRequest = some c ∧
      c.Writer.sent.map Prod.fst = some 200 ∧ c.Writer.body = []) ∧
    (∃ c, handleHTTPRequest emptyDB 7 digestRequest = some c ∧
      c.Writer.sent.map Prod.fst = some 200 ∧ c.Writer.body = [Body.json []]) :=
  ⟨⟨by decide, rfl, rfl, by decide, rfl⟩,
    (by
      obtain ⟨c, r, sql, hc, _, _, he, _⟩ :=
        query_failure_is_empty_200 failingDB 7 digestRequest "digest" (by decide) rfl rfl
          (by decide)
      exact ⟨c, hc, he "exec failed" rfl⟩),
    (by
      obtain ⟨c, r, sql, hc, _, _, _, hk, _⟩ :=
        query_failure_is_empty_200 emptyDB 7 digestRequest "digest" (by decide) rfl rfl
          (by decide)
      exact ⟨c, hc, hk [] rfl rfl⟩)⟩

/-- C9, counterexample: on an OPTIONS request carrying `start_time`, after `Cors` has set
status 204 neither `SearchTime` nor `OrderBy` nor a route handler runs (no `where`, no
`order`, no statement), also when the chain is the route chain; on a POST request, after
`SearchTime` has set status 204 `OrderBy` does not run. -/
theorem options_and_post_run_nothing_downstream :
    (∃ c, handleHTTPRequest emptyDB 7 optionsRequest = some c ∧
      c.Writer.sent.map Prod.fst = some 204 ∧ c.Keys = [] ∧ c.queries = []) ∧
    (∃ c, Next (routeChain emptyDB) 7
        { newContext optionsRequest with Params := [("algo", "digest")] } = some c ∧
      c.Writer.sent.map Prod.fst = some 204 ∧ c.Keys = [] ∧ c.queries = [] ∧
      c.Writer.body = []) ∧
    (∃ c, handleHTTPRequest emptyDB 7 postRequest = some c ∧
      c.Writer.sent.map Prod.fst = some 204 ∧ c.Keys.lookup "order" = none ∧
      c.queries = []) := by
  refine ⟨⟨_, handleHTTPRequest_OPTIONS emptyDB 0 optionsRequest rfl, rfl, rfl, rfl⟩, ?_,
    ⟨_, handleHTTPRequest_other emptyDB 0 postRequest (by decide) (by decide), rfl, ?_, rfl⟩⟩
  · have hm : ({ newContext optionsRequest with Params := [("algo", "digest")] }
        : Context).Request.Method = "OPTIONS" := rfl
    have e := Next_middleware_OPTIONS [algoHandler emptyDB] 3
      { newContext optionsRequest with Params := [("algo", "digest")] } hm rfl (by decide)
    have hm3 : ({ newContext optionsRequest with Params := [("algo", "digest")] }
        : Context).incIndex.incIndex.incIndex.Request.Method = "OPTIONS" := rfl
    rw [bodyOf_Cors_abort _ hm3] at e
    refine ⟨_, e, ?_, rfl, rfl, ?_⟩
    · simp [Context.bump, Context.incIndex, newContext, ResponseWriter.WriteHeader,
        ResponseWriter.WriteHeaderNow, ResponseWriter.Written, StatusNoContent, StatusOK]
    · simp [Context.bump, Context.incIndex, newContext, ResponseWriter.WriteHeader,
        ResponseWriter.WriteHeaderNow, ResponseWriter.Written, StatusNoContent, StatusOK]
  · simp [whereOf, postRequest, StrMap.get, List.lookup]

/-- C9, amended: `Cors` on an OPTIONS request and `SearchTime` on a request that is not GET
halt the chain, and run to their own end.  The `c.Next()` the stage calls after the abort
runs no handler of the chain, whatever the chain (of fewer than `abortIndex` handlers): it
only advances the index.  The statements of the stage after the abort still run: `Cors`
sets the five headers on the header map when `Origin` is non-empty, `SearchTime` stores
the `where` value.  For the engine, a request that is not GET is answered with status 204
and no body, `OrderBy` has not run and no statement was issued; the header map carries the
five headers when `Origin` is non-empty; on OPTIONS `SearchTime` has not run, on any other
method it has stored the `where` value. -/
theorem abort_halts_chain (hs : List HandlerFunc) (fuel : Nat) (c : Context) (DB : Database)
    (req : Request) (hlen : hs.length < 63) (hfuel : 7 ≤ fuel) :
    (c.Request.Method = "OPTIONS" →
      Cors (Next hs (fuel + 1)) c = Cors (fun x => some x.incIndex) c ∧
      ∃ c1, Cors (Next hs (fuel + 1)) c = some c1 ∧ c1.Keys = c.Keys ∧
        c1.queries = c.queries ∧
        (c.GetHeader "Origin" ≠ "" → carriesCorsHeaders c1.Writer.header)) ∧
    (c.Request.Method ≠ "GET" →
      SearchTime (Next hs (fuel + 1)) c = SearchTime (fun x => some x.incIndex) c ∧
      ∃ c1, SearchTime (Next hs (fuel + 1)) c = some c1 ∧ c1.queries = c.queries ∧
        c1.Writer.header = c.Writer.header ∧
        (c.Query "start_time" ≠ "" → c.Query "end_time" ≠ "" →
          c1.Keys.lookup "where" = some ("where `job_date` >= '" ++ c.Query "start_time" ++
            "' and `job_date` <= '" ++ c.Query "end_time" ++ "'")) ∧
        (c.Query "start_time" ≠ "" → c.Query "end_time" = "" →
          c1.Keys.lookup "where"
            = some ("where `job_date` >= '" ++ c.Query "start_time" ++ "'")) ∧
        (c.Query "start_time" = "" → c.Query "end_time" ≠ "" →
          c1.Keys.lookup "where"
            = some ("where `job_date` <= '" ++ c.Query "end_time" ++ "'"))) ∧
    (req.Method ≠ "GET" →
      ∃ c1, handleHTTPRequest DB fuel req = some c1 ∧
        c1.Writer.sent.map Prod.fst = some 204 ∧ c1.Writer.body = [] ∧
        c1.Keys.lookup "order" = none ∧ c1.queries = [] ∧
        (req.Header.get "Origin" ≠ "" → carriesCorsHeaders c1.Writer.header) ∧
        (req.Method = "OPTIONS" → c1.Keys = []) ∧
        (req.Method ≠ "OPTIONS" →
          (req.Query.get "start_time" ≠ "" → req.Query.get "end_time" ≠ "" →
            c1.Keys.lookup "where" = some ("where `job_date` >= '" ++
              req.Query.get "start_time" ++ "' and `job_date` <= '" ++
              req.Query.get "end_time" ++ "'")) ∧
          (req.Query.get "start_time" ≠ "" → req.Query.get "end_time" = "" →
            c1.Keys.lookup "where"
              = some ("where `job_date` >= '" ++ req.Query.get "start_time" ++ "'")) ∧
          (req.Query.get "start_time" = "" → req.Query.get "end_time" ≠ "" →
            c1.Keys.lookup "where"
              = some ("where `job_date` <= '" ++ req.Query.get "end_time" ++ "'")))) := by
  refine ⟨?_, ?_, ?_⟩
  · intro hm
    have hrun : Cors (Next hs (fuel + 1)) c = some (bodyOf Cors c).incIndex := by
      rw [Cors_body]
      apply Next_aborted
      rw [bodyOf_Cors_index_abort c hm]
      omega
    refine ⟨?_, _, hrun, ?_, ?_, ?_⟩
    · rw [hrun, Cors_body]
    · show (bodyOf Cors c).Keys = c.Keys
      rw [bodyOf_Cors_abort c hm]
    · show (bodyOf Cors c).queries = c.queries
      rw [bodyOf_Cors_abort c hm]
    · intro ho
      show carriesCorsHeaders (bodyOf Cors c).Writer.header
      rw [bodyOf_Cors_header, if_pos ho]
      exact carriesCorsHeaders_corsHeaders _
  · intro hm
    have hrun : SearchTime (Next hs (fuel + 1)) c = some (bodyOf SearchTime c).incIndex := by
      rw [SearchTime_body]
      apply Next_aborted
      rw [bodyOf_SearchTime_index_abort c hm]
      omega
    refine ⟨?_, _, hrun, ?_, ?_, ?_, ?_, ?_⟩
    · rw [hrun, SearchTime_body]
    · show (bodyOf SearchTime c).queries = c.queries
      rw [bodyOf_SearchTime_abort c hm]
    · show (bodyOf SearchTime c).Writer.header = c.Writer.header
      rw [bodyOf_SearchTime_abort c hm]
      simp only [WriteHeaderNow_header, WriteHeader_header]
    · intro h1 h2
      show (bodyOf SearchTime c).Keys.lookup "where" = _
      rw [bodyOf_SearchTime_Keys, if_pos (Or.inl h1), lookup_set, whereSql_both _ _ h1 h2]
    · intro h1 h2
      show (bodyOf SearchTime c).Keys.lookup "where" = _
      rw [bodyOf_SearchTime_Keys, if_pos (Or.inl h1), lookup_set, whereSql_start _ _ h1 h2]
    · intro h1 h2
      show (bodyOf SearchTime c).Keys.lookup "where" = _
      rw [bodyOf_SearchTime_Keys, if_pos (Or.inr h2), lookup_set, whereSql_end _ _ h1 h2]
  · intro hm
    obtain ⟨k, rfl⟩ : ∃ k, fuel = k + 7 := ⟨fuel - 7, by omega⟩
    by_cases ho : req.Method = "OPTIONS"
    · exact ⟨_, handleHTTPRequest_OPTIONS DB k req ho, rfl, rfl, rfl, rfl,
        (carriesCorsHeaders_corsOf req).mpr, fun _ => rfl, fun h => absurd ho h⟩
    · refine ⟨_, handleHTTPRequest_other DB k req ho hm, rfl, rfl, ?_, rfl,
        (carriesCorsHeaders_corsOf req).mpr, fun h => absurd h ho, fun _ => ⟨?_, ?_, ?_⟩⟩
      · unfold whereOf
        split <;> simp [StrMap.set, List.lookup]
      · intro h1 h2
        show List.lookup "where" (whereOf req) = _
        rw [whereOf, if_pos (Or.inl h1), lookup_set, whereSql_both _ _ h1 h2]
      · intro h1 h2
        show List.lookup "where" (whereOf req) = _
        rw [whereOf, if_pos (Or.inl h1), lookup_set, whereSql_start _ _ h1 h2]
      · intro h1 h2
        show List.lookup "where" (whereOf req) = _
        rw [whereOf, if_pos (Or.inr h2), lookup_set, whereSql_end _ _ h1 h2]

/-- C9, witness of the amended statement: an OPTIONS request with `Origin` on the route
chain, where `Cors` still sets the headers and nothing downstream runs, and a POST request
with `Origin` and a lower bound, where `SearchTime` still stores the clause and `OrderBy`
does not run. -/
theorem abort_halts_chain_witness :
    ((routeChain emptyDB).length < 63 ∧ 7 ≤ 7 ∧
      (newContext preflightRequest).Request.Method = "OPTIONS" ∧
      (newContext preflightRequest).GetHeader "Origin" ≠ "" ∧
      postStartRequest.Method ≠ "GET" ∧ postStartRequest.Method ≠ "OPTIONS" ∧
      postStartRequest.Header.get "Origin" ≠ "" ∧
      postStartRequest.Query.get "start_time" ≠ "" ∧
      postStartRequest.Query.get "end_time" = "") ∧
    (∃ c1, Cors (Next (routeChain emptyDB) (7 + 1)) (newContext preflightRequest) = some c1 ∧
      c1.Keys = [] ∧ c1.queries = [] ∧ carriesCorsHeaders c1.Writer.header) ∧
    ∃ c1, handleHTTPRequest emptyDB 7 postStartRequest = some c1 ∧
      c1.Writer.sent.map Prod.fst = some 204 ∧ c1.Keys.lookup "order" = none ∧
      c1.queries = [] ∧ carriesCorsHeaders c1.Writer.header ∧
      c1.Keys.lookup "where" = some "where `job_date` >= '2024-01-01'" :=
  ⟨⟨by decide, by decide, rfl, by decide, by decide, by decide, by decide, by decide, rfl⟩, by
    have h := abort_halts_chain (routeChain emptyDB) 7 (newContext preflightRequest) emptyDB
      postStartRequest (by decide) (by decide)
    obtain ⟨c1, hc, hk, hq, hh⟩ := (h.1 rfl).2
    obtain ⟨c2, hc2, hs, _, ho, hq2, hh2, _, hw⟩ := h.2.2 (by decide)
    exact ⟨⟨c1, hc, hk, hq, hh (by decide)⟩, c2, hc2, hs, ho, hq2, hh2 (by decide),
      (hw (by decide)).2.1 (by decide) rfl⟩⟩

end TongsuoBenchmark
